import Mathlib

/-!
Verification of the de-identification pipeline in `tutorial/deidentify.py`.

The record set (a pandas `DataFrame`) is modelled as a `Frame`: a list of
column names together with a list of rows, each row an association list from
field names to `Value`s.  Timestamp cells are modelled as already-parsed
(date string, hour) pairs: `pd.to_datetime` parsing is external to the
pipeline logic, `strftime('%Y-%m-%d')` is the stored date component and
`.dt.hour` the stored hour.  Missing values (`NaN`/`NaT`) are `Value.nan`.
Fallible operations (pandas raises `KeyError` when a stage's expected column
is absent from the working record set, and `put_time_in_4_hour_bins` raises
`NameError` at its return statement) are modelled with `Except Err`.
-/

namespace Deidentify

/-- A cell value: string, integer, rational (deprivation indices), a parsed
timestamp (date string and hour of day), or a missing value (`NaN`). -/
inductive Value where
  | str (s : String)
  | int (n : Int)
  | rat (q : ℚ)
  | ts (date : String) (hour : Nat)
  | nan
deriving DecidableEq, Repr

/-- A row: an ordered association list from field names to values. -/
abbrev Row := List (String × Value)

/-- Field lookup in a row (first occurrence). -/
def Row.get : Row → String → Option Value
  | [], _ => none
  | (k, v) :: r, c => if k = c then some v else Row.get r c

/-- Remove every field named `c` from a row (pandas `drop` removes all
columns with the given label). -/
def Row.del (r : Row) (c : String) : Row :=
  r.filter (fun p => decide (p.1 ≠ c))

/-- Column assignment on a row: replace the value of an existing field, or
append the field at the end (pandas column assignment semantics). -/
def Row.set (r : Row) (c : String) (v : Value) : Row :=
  if r.any (fun p => decide (p.1 = c)) then
    r.map (fun p => if p.1 = c then (c, v) else p)
  else
    r ++ [(c, v)]

/-- Errors a stage can raise: `schemaError c` models the pandas `KeyError`
naming the absent column `c` (the spec's `SchemaError` taxonomy entry), and
`nameError` models the Python `NameError` raised by evaluating an undefined
variable name. -/
inductive Err where
  | schemaError (col : String)
  | nameError
deriving DecidableEq, Repr

/-- A record set: column labels plus rows. -/
structure Frame where
  cols : List String
  rows : List Row
deriving DecidableEq, Repr

/-- `df.drop(c, 1)`: drops the column entirely; pandas raises a `KeyError`
naming the column when it is absent. -/
def Frame.drop (df : Frame) (c : String) : Except Err Frame :=
  if c ∈ df.cols then
    .ok ⟨df.cols.filter (fun c' => decide (c' ≠ c)), df.rows.map (fun r => Row.del r c)⟩
  else
    .error (.schemaError c)

/-- Keep the fields of `r` named in `cs`, in the order of `cs`. -/
def selectRow (cs : List String) (r : Row) : Row :=
  cs.filterMap (fun c => (Row.get r c).map (fun v => (c, v)))

/-- `df[cs]`: column selection; raises when a requested column is absent. -/
def Frame.select (df : Frame) (cs : List String) : Except Err Frame :=
  match cs.find? (fun c => decide (c ∉ df.cols)) with
  | some c => .error (.schemaError c)
  | none => .ok ⟨cs, df.rows.map (selectRow cs)⟩

/-- Add (or overwrite) column `c`, computing each row's value from the row. -/
def Frame.setCol (df : Frame) (c : String) (f : Row → Value) : Frame :=
  ⟨if c ∈ df.cols then df.cols else df.cols ++ [c],
   df.rows.map (fun r => Row.set r c (f r))⟩

/-- The right-hand rows joined to one left row: every right row whose key
value equals the left row's (a missing key matches nothing), appended
without its key field. -/
def mergeRow (rrows : List Row) (key : String) (a : Row) : List Row :=
  match Row.get a key with
  | some v =>
    ((rrows.filter (fun s => decide (Row.get s key = some v))).map
      (fun s => a ++ Row.del s key))
  | none => []

/-- `pd.merge(left, right, on=key)`: inner equality join.  Output keeps the
left columns followed by the non-key right columns; each left row is paired
with every matching right row (inner joins preserve the order of the left
keys).  A missing key column raises a `KeyError` naming it. -/
def merge (left right : Frame) (key : String) : Except Err Frame :=
  if key ∈ left.cols then
    if key ∈ right.cols then
      .ok ⟨left.cols ++ right.cols.filter (fun c => decide (c ≠ key)),
           left.rows.flatMap (mergeRow right.rows key)⟩
    else .error (.schemaError key)
  else .error (.schemaError key)

/-- `drop_duplicates()`: keep the first occurrence of each element. -/
def dedupFirst {α : Type} [DecidableEq α] (l : List α) : List α :=
  l.foldl (fun acc x => if x ∈ acc then acc else acc ++ [x]) []

/-- Numeric view of a value, as pandas coerces integer columns to float for
`cut`/`qcut`; non-numeric values (including `NaN`) have none. -/
def toRatVal : Value → Option ℚ
  | .int n => some (n : ℚ)
  | .rat q => some q
  | _ => none

/-- The numeric entries of a column, in row order (`qcut` ignores `NaN`s). -/
def colRats (df : Frame) (c : String) : List ℚ :=
  df.rows.filterMap (fun r => (Row.get r c).bind toRatVal)

/-- Nondecreasing sort, as used by quantile computation. -/
def sortedQ (l : List ℚ) : List ℚ :=
  l.insertionSort (· ≤ ·)

/-- Addition on `ℚ` by the normalized-fraction formula.  `Rat.add` is
`@[irreducible]`, so this definitionally evaluating clone is used inside
the executable definitions; `qAdd_eq` identifies it with `+`. -/
def qAdd (a b : ℚ) : ℚ := mkRat (a.num * b.den + b.num * a.den) (a.den * b.den)

/-- Subtraction on `ℚ` by the normalized-fraction formula. -/
def qSub (a b : ℚ) : ℚ := mkRat (a.num * b.den - b.num * a.den) (a.den * b.den)

/-- Multiplication on `ℚ` by the normalized-fraction formula. -/
def qMul (a b : ℚ) : ℚ := mkRat (a.num * b.num) (a.den * b.den)

/-- The `k/10`-quantile of the sorted list `s` by linear interpolation
(numpy's default): position `pos = k*(n-1)/10`, interpolating between the
order statistics at `⌊pos⌋` and `⌊pos⌋ + 1`.  The integer and fractional
parts of `pos` are taken with natural division: `⌊k*(n-1)/10⌋ = k*(n-1) / 10`
and `pos - ⌊pos⌋ = (k*(n-1) % 10) / 10`. -/
def qtileAt (s : List ℚ) (k : ℕ) : ℚ :=
  match s.get? (k * (s.length - 1) / 10 + 1) with
  | some y =>
    qAdd (s.getD (k * (s.length - 1) / 10) 0)
      (qMul (mkRat (k * (s.length - 1) % 10 : ℕ) 10)
        (qSub y (s.getD (k * (s.length - 1) / 10) 0)))
  | none => s.getD (k * (s.length - 1) / 10) 0

/-- `pd.qcut(l, 10, retbins=True)`: the 11 decile boundaries of `l`. -/
def quantileBins (l : List ℚ) : List ℚ :=
  [qtileAt (sortedQ l) 0, qtileAt (sortedQ l) 1, qtileAt (sortedQ l) 2,
   qtileAt (sortedQ l) 3, qtileAt (sortedQ l) 4, qtileAt (sortedQ l) 5,
   qtileAt (sortedQ l) 6, qtileAt (sortedQ l) 7, qtileAt (sortedQ l) 8,
   qtileAt (sortedQ l) 9, qtileAt (sortedQ l) 10]

/-- `pd.cut(v, bins=bins, labels=False, include_lowest=True)`: the bin index
of `v` for right-closed bins `(bins[i], bins[i+1]]` with the lowest edge
inclusive; `none` (`NaN`) outside `[bins[0], bins[last]]`. -/
def cutIdx (bins : List ℚ) (v : ℚ) : Option ℕ :=
  if 2 ≤ bins.length then
    if v < bins.headD 0 ∨ bins.getLastD 0 < v then none
    else some (bins.countP (fun b => decide (b < v)) - 1)
  else none

/-- `pd.cut` with string labels. -/
def cutLabel (bins : List ℚ) (labels : List String) (v : ℚ) : Option String :=
  (cutIdx bins v).bind (fun i => labels.get? i)

/-- Column names used by the pipeline. -/
def nhsCol : String := "NHS number"
def postcodeCol : String := "Postcode"
def lsoaCol : String := "Lower layer super output area"
def imdCol : String := "Index of Multiple Deprivation"
def decileCol : String := "Index of Multiple Deprivation Decile"
def hospitalCol : String := "Hospital"
def hospitalIdCol : String := "Hospital ID"
def arrivalTimeCol : String := "Arrival Time"
def arrivalDateCol : String := "Arrival Date"
def arrivalHourCol : String := "Arrival Hour"
def hourRangeCol : String := "Arrival hour range"
def genderCol : String := "Gender"
def ageCol : String := "Age"
def ageBracketCol : String := "Age bracket"

/-- `remove_nhs_numbers`: `nhs_ae_df.drop('NHS number', 1)`. -/
def remove_nhs_numbers (df : Frame) : Except Err Frame :=
  df.drop nhsCol

/-- `convert_postcodes_to_lsoa`: inner-merge the working set with the
reference table's `(Postcode, LSOA)` columns on `Postcode`, then drop
`Postcode`. -/
def convert_postcodes_to_lsoa (ref df : Frame) : Except Err Frame :=
  (ref.select [postcodeCol, lsoaCol]).bind (fun sel =>
    (merge df sel postcodeCol).bind (fun merged => merged.drop postcodeCol))

/-- The annotated decile cell: `pd.cut(..., labels=False, include_lowest=True) + 1`
(`NaN` stays `NaN`). -/
def decileValue (bins : List ℚ) (v : Option ℚ) : Value :=
  match v with
  | none => .nan
  | some q =>
    match cutIdx bins q with
    | none => .nan
    | some i => .int ((i : ℤ) + 1)

/-- The decile cell of a row: its deprivation-index value cut against the
precomputed boundaries. -/
def decileCell (bins : List ℚ) (r : Row) : Value :=
  decileValue bins ((Row.get r imdCol).bind toRatVal)

/-- The deduplicated `(LSOA, IMD)` pair rows of the reference table. -/
def lsoaPairs (ref : Frame) : List Row :=
  dedupFirst (ref.rows.map (selectRow [lsoaCol, imdCol]))

/-- `convert_lsoa_to_imd_decile`: merge with the deduplicated
`(LSOA, IMD)` pairs of the reference table, compute decile boundaries by
`pd.qcut` over the full reference `IMD` column, annotate each row's decile
by `pd.cut` against those boundaries, and drop the `IMD` and `LSOA`
columns. -/
def convert_lsoa_to_imd_decile (ref df : Frame) : Except Err Frame :=
  (ref.select [lsoaCol, imdCol]).bind (fun sel =>
    (merge df ⟨sel.cols, dedupFirst sel.rows⟩ lsoaCol).bind (fun merged =>
      ((merged.setCol decileCol
          (decileCell (quantileBins (colRats ref imdCol)))).drop imdCol).bind
        (fun d1 => d1.drop lsoaCol)))

/-- The `{hospital: id}` dictionary built by zipping the shuffled distinct
hospital list with `range(1, len(hospitals)+1)`. -/
def hospMap (shuffled : List Value) : List (Value × ℕ) :=
  shuffled.zip (List.range' 1 shuffled.length)

/-- Dictionary lookup (first matching key). -/
def mapLookup : List (Value × ℕ) → Value → Option ℕ
  | [], _ => none
  | (k, i) :: m, v => if k = v then some i else mapLookup m v

/-- The pseudonymous ID cell of a row: its hospital name mapped through the
dictionary (`Series.map` yields `NaN` on a missing key). -/
def hospitalIdValue (m : List (Value × ℕ)) (r : Row) : Value :=
  match Row.get r hospitalCol with
  | some v =>
    match mapLookup m v with
    | some i => .int (i : ℤ)
    | none => .nan
  | none => .nan

/-- `replace_hospital_with_random_number`: `shuffled` stands for the value of
`hospitals` after `random.shuffle` (the theorems quantify over every
permutation of the distinct hospital names).  The `Hospital ID` column is
added and the `Hospital` column dropped. -/
def replace_hospital_with_random_number (shuffled : List Value) (df : Frame) :
    Except Err Frame :=
  if hospitalCol ∈ df.cols then
    (df.setCol hospitalIdCol (hospitalIdValue (hospMap shuffled))).drop hospitalCol
  else .error (.schemaError hospitalCol)

/-- Bin edges `[0, 4, 8, 12, 16, 20, 24]` of the time bracketing. -/
def hourBins : List ℚ := [0, 4, 8, 12, 16, 20, 24]

/-- Labels of the 4-hour brackets. -/
def hourLabels : List String := ["00-03", "04-07", "08-11", "12-15", "16-19", "20-23"]

/-- Timestamp view of a cell. -/
def tsOf (r : Row) (c : String) : Option (String × ℕ) :=
  match Row.get r c with
  | some (.ts d h) => some (d, h)
  | _ => none

/-- The arrival-date cell of a row: `strftime('%Y-%m-%d')` of its parsed
timestamp. -/
def arrivalDateValue (r : Row) : Value :=
  match tsOf r arrivalTimeCol with
  | some (d, _) => .str d
  | none => .nan

/-- The arrival-hour cell of a row: `.dt.hour` of its parsed timestamp. -/
def arrivalHourValue (r : Row) : Value :=
  match tsOf r arrivalTimeCol with
  | some (_, h) => .int (h : ℤ)
  | none => .nan

/-- The 4-hour-bracket cell of a row: its arrival hour cut into the fixed
labels (out-of-range and missing hours become `NaN`). -/
def hourRangeValue (r : Row) : Value :=
  match (Row.get r arrivalHourCol).bind toRatVal with
  | some q =>
    match cutLabel hourBins hourLabels q with
    | some l => .str l
    | none => .nan
  | none => .nan

/-- The row of the temporal stage's body after the first column assignment. -/
def timeRow1 (r : Row) : Row :=
  Row.set r arrivalDateCol (arrivalDateValue r)

/-- The row of the temporal stage's body after the second column assignment. -/
def timeRow2 (r : Row) : Row :=
  Row.set (timeRow1 r) arrivalHourCol (arrivalHourValue (timeRow1 r))

/-- The per-row transformation performed by the temporal stage's body:
add the date, hour and 4-hour-bracket fields, then remove the timestamp
and hour fields. -/
def timeRow (r : Row) : Row :=
  Row.del (Row.del (Row.set (timeRow2 r) hourRangeCol (hourRangeValue (timeRow2 r)))
    arrivalTimeCol) arrivalHourCol

/-- Append a column label when it is not already present (the column-list
effect of a pandas column assignment). -/
def addColIf (c : String) (cs : List String) : List String :=
  if c ∈ cs then cs else cs ++ [c]

/-- The column list produced by the temporal stage's body from an input
column list. -/
def timeAddCols (cs : List String) : List String :=
  ((addColIf hourRangeCol (addColIf arrivalHourCol (addColIf arrivalDateCol
      cs))).filter (fun c => decide (c ≠ arrivalTimeCol))).filter
    (fun c => decide (c ≠ arrivalHourCol))

/-- The record set computed by the body of `put_time_in_4_hour_bins`: the
value of its local `nhs_ae_df` at the return statement (arrival date and
hour extracted, the hour cut into 4-hour brackets, the timestamp and hour
columns dropped). -/
def put_time_frame (df : Frame) : Except Err Frame :=
  if arrivalTimeCol ∈ df.cols then
    ((((df.setCol arrivalDateCol arrivalDateValue).setCol
        arrivalHourCol arrivalHourValue).setCol hourRangeCol
          hourRangeValue).drop arrivalTimeCol).bind
      (fun d4 => d4.drop arrivalHourCol)
  else .error (.schemaError arrivalTimeCol)

/-- `put_time_in_4_hour_bins`: the function computes the frame of
`put_time_frame` and then executes `return nhs_df` — but `nhs_df` is an
undefined name (its parameter is `nhs_ae_df`), so the stage raises a
`NameError` instead of returning the computed frame. -/
def put_time_in_4_hour_bins (df : Frame) : Except Err Frame :=
  (put_time_frame df).bind (fun _ => .error .nameError)

/-- The gender test `nhs_df['Gender'].isin(['Male', 'Female'])` on one row. -/
def genderKeep (r : Row) : Bool :=
  decide (Row.get r genderCol = some (.str "Male") ∨
          Row.get r genderCol = some (.str "Female"))

/-- `remove_non_male_or_female`: `nhs_df[nhs_df['Gender'].isin(['Male', 'Female'])]`. -/
def remove_non_male_or_female (df : Frame) : Except Err Frame :=
  if genderCol ∈ df.cols then
    .ok ⟨df.cols, df.rows.filter genderKeep⟩
  else .error (.schemaError genderCol)

/-- Bin edges `[0, 18, 25, 45, 65, 85, 150]` of the age bracketing. -/
def ageBins : List ℚ := [0, 18, 25, 45, 65, 85, 150]

/-- Labels of the age brackets as written in the source (`'85-'` for the
top bracket). -/
def ageLabels : List String := ["0-17", "18-24", "25-44", "45-64", "65-84", "85-"]

/-- The age-bracket cell of a row: its age cut into the fixed brackets
(out-of-range and non-numeric ages become `NaN`). -/
def ageBracketValue (r : Row) : Value :=
  match (Row.get r ageCol).bind toRatVal with
  | some q =>
    match cutLabel ageBins ageLabels q with
    | some l => .str l
    | none => .nan
  | none => .nan

/-- `add_age_brackets`: cut `Age` into the fixed brackets (out-of-range ages
become `NaN`), add the `Age bracket` column, drop `Age`. -/
def add_age_brackets (df : Frame) : Except Err Frame :=
  if ageCol ∈ df.cols then
    (df.setCol ageBracketCol ageBracketValue).drop ageCol
  else .error (.schemaError ageCol)

/-- The stage sequence of `main` (the load and write steps are file I/O and
are omitted); `shuffled` is the shuffle drawn in the hospital stage. -/
def pipeline (ref : Frame) (shuffled : List Value) (df : Frame) : Except Err Frame := do
  let d1 ← remove_nhs_numbers df
  let d2 ← convert_postcodes_to_lsoa ref d1
  let d3 ← convert_lsoa_to_imd_decile ref d2
  let d4 ← replace_hospital_with_random_number shuffled d3
  let d5 ← put_time_in_4_hour_bins d4
  let d6 ← remove_non_male_or_female d5
  add_age_brackets d6

/-- Modelled from the spec: `main`'s stage sequence where the temporal stage
returns the record set its body computes (stage 6 of the spec's pipeline
contract); the shipped code instead ends `put_time_in_4_hour_bins` with
`return nhs_df`, an undefined name. -/
def pipelineIntended (ref : Frame) (shuffled : List Value) (df : Frame) :
    Except Err Frame := do
  let d1 ← remove_nhs_numbers df
  let d2 ← convert_postcodes_to_lsoa ref d1
  let d3 ← convert_lsoa_to_imd_decile ref d2
  let d4 ← replace_hospital_with_random_number shuffled d3
  let d5 ← put_time_frame d4
  let d6 ← remove_non_male_or_female d5
  add_age_brackets d6

/-! ### Concrete record sets used by the scenario theorems -/

/-- A concrete reference table: 20 rows `(P i, L i, deprivation index i)`
for `i = 1, …, 20`; row-unique per postcode and per small area. -/
def refFrame : Frame :=
  ⟨[postcodeCol, lsoaCol, imdCol],
   (List.range' 1 20).map (fun i =>
     [(postcodeCol, Value.str ("P" ++ toString i)),
      (lsoaCol, Value.str ("L" ++ toString i)),
      (imdCol, Value.rat (i : ℚ))])⟩

/-- The end-to-end scenario input: hospitals `{A, B, A}`, ages `{10, 30, 90}`,
genders `{Male, Female, Other}`, postcodes `P4`, `P17`, `P4` whose reference
deprivation indices 4 and 17 fall in deciles 2 and 9 of `refFrame`. -/
def inputFrame : Frame :=
  ⟨[nhsCol, postcodeCol, hospitalCol, arrivalTimeCol, genderCol, ageCol],
   [[(nhsCol, Value.str "111"), (postcodeCol, Value.str "P4"),
     (hospitalCol, Value.str "A"), (arrivalTimeCol, Value.ts "2019-04-01" 7),
     (genderCol, Value.str "Male"), (ageCol, Value.int 10)],
    [(nhsCol, Value.str "222"), (postcodeCol, Value.str "P17"),
     (hospitalCol, Value.str "B"), (arrivalTimeCol, Value.ts "2019-04-01" 12),
     (genderCol, Value.str "Female"), (ageCol, Value.int 30)],
    [(nhsCol, Value.str "333"), (postcodeCol, Value.str "P4"),
     (hospitalCol, Value.str "A"), (arrivalTimeCol, Value.ts "2019-04-01" 23),
     (genderCol, Value.str "Other"), (ageCol, Value.int 90)]]⟩

/-- One shuffle of the two distinct hospital names `{A, B}` of `inputFrame`. -/
def shuffledBA : List Value := [Value.str "B", Value.str "A"]

/-- The record set the intended pipeline produces on the scenario input. -/
def expectedOutput : Frame :=
  ⟨[genderCol, decileCol, hospitalIdCol, arrivalDateCol, hourRangeCol, ageBracketCol],
   [[(genderCol, Value.str "Male"), (decileCol, Value.int 2),
     (hospitalIdCol, Value.int 2), (arrivalDateCol, Value.str "2019-04-01"),
     (hourRangeCol, Value.str "04-07"), (ageBracketCol, Value.str "0-17")],
    [(genderCol, Value.str "Female"), (decileCol, Value.int 9),
     (hospitalIdCol, Value.int 1), (arrivalDateCol, Value.str "2019-04-01"),
     (hourRangeCol, Value.str "08-11"), (ageBracketCol, Value.str "25-44")]]⟩

/-- A one-row record set whose age sits exactly on the interior bin edge 18. -/
def frameAge18 : Frame := ⟨[ageCol], [[(ageCol, Value.int 18)]]⟩

/-- A one-row record set whose arrival hour sits exactly on the bin edge 4. -/
def frameHour4 : Frame :=
  ⟨[arrivalTimeCol], [[(arrivalTimeCol, Value.ts "2019-01-01" 4)]]⟩

/-- A reference table that is row-unique per postcode but maps the single
small area `L1` to two different deprivation indices. -/
def refDup : Frame :=
  ⟨[postcodeCol, lsoaCol, imdCol],
   [[(postcodeCol, Value.str "PA"), (lsoaCol, Value.str "L1"),
     (imdCol, Value.rat 5)],
    [(postcodeCol, Value.str "PB"), (lsoaCol, Value.str "L1"),
     (imdCol, Value.rat 7)]]⟩

/-- A one-row working record set carrying small area `L1`. -/
def frameOneL1 : Frame := ⟨[lsoaCol], [[(lsoaCol, Value.str "L1")]]⟩

/-- A one-row record set with the out-of-range age 151. -/
def frameAge151 : Frame := ⟨[ageCol], [[(ageCol, Value.int 151)]]⟩

/-- A three-row record set with the boundary ages 0, 18 and 150. -/
def frameAges : Frame :=
  ⟨[ageCol],
   [[(ageCol, Value.int 0)], [(ageCol, Value.int 18)], [(ageCol, Value.int 150)]]⟩

/-- A three-row record set with the boundary arrival hours 0, 7 and 23. -/
def frameHours : Frame :=
  ⟨[arrivalTimeCol],
   [[(arrivalTimeCol, Value.ts "2019-01-02" 0)],
    [(arrivalTimeCol, Value.ts "2019-01-02" 7)],
    [(arrivalTimeCol, Value.ts "2019-01-02" 23)]]⟩

/-- The age label dictated by right-closed bins with the lowest edge
inclusive: ages in `[0, 18]` get `0-17`, `(18, 25]` get `18-24`,
`(25, 45]` get `25-44`, `(45, 65]` get `45-64`, `(65, 85]` get `65-84`,
`(85, 150]` get `85-`. -/
def expectedAgeLabel (q : ℚ) : String :=
  if q ≤ 18 then "0-17"
  else if q ≤ 25 then "18-24"
  else if q ≤ 45 then "25-44"
  else if q ≤ 65 then "45-64"
  else if q ≤ 85 then "65-84"
  else "85-"

/-- The time label dictated by right-closed bins with the lowest edge
inclusive: hour 0 gets `00-03` and hour `h ≥ 1` falls in the bin whose
closed-open hour span contains `h - 1`. -/
def expectedHourLabel (h : ℕ) : String :=
  if h = 0 then "00-03" else hourLabels.getD ((h - 1) / 4) ""

/-! ### Bridge lemmas for the reducible rational operations -/

theorem qAdd_eq (a b : ℚ) : qAdd a b = a + b := (Rat.add_def' a b).symm

theorem qSub_eq (a b : ℚ) : qSub a b = a - b := (Rat.sub_def' a b).symm

theorem qMul_eq (a b : ℚ) : qMul a b = a * b := by
  rw [qMul, Rat.mul_def, Rat.normalize_eq_mkRat]

/-! ### Row and frame lemmas -/

theorem Row.get_map_update (r : Row) (c : String) (v : Value) :
    Row.get (r.map (fun p => if p.1 = c then (c, v) else p)) c =
      if r.any (fun p => decide (p.1 = c)) then some v else none := by
  induction r with
  | nil => rfl
  | cons q t ih =>
    simp only [List.map_cons, List.any_cons]
    by_cases hq : q.1 = c
    · rw [if_pos hq, Row.get]
      simp [hq]
    · rw [if_neg hq, Row.get, if_neg hq, ih]
      simp only [decide_eq_false hq, Bool.false_or]

theorem Row.get_append_right (r t : Row) (c : String) (h : Row.get r c = none) :
    Row.get (r ++ t) c = Row.get t c := by
  induction r with
  | nil => rfl
  | cons q s ih =>
    rw [Row.get] at h
    by_cases hq : q.1 = c
    · rw [if_pos hq] at h; exact absurd h (by simp)
    · rw [if_neg hq] at h
      rw [List.cons_append, Row.get, if_neg hq]
      exact ih h

theorem Row.get_append_left (r t : Row) (c : String) {v : Value}
    (h : Row.get r c = some v) : Row.get (r ++ t) c = some v := by
  induction r with
  | nil => exact absurd h (by simp [Row.get])
  | cons q s ih =>
    rw [Row.get] at h
    by_cases hq : q.1 = c
    · rw [if_pos hq] at h
      rw [List.cons_append, Row.get, if_pos hq]
      exact h
    · rw [if_neg hq] at h
      rw [List.cons_append, Row.get, if_neg hq]
      exact ih h

theorem Row.get_eq_none_of_not_any (r : Row) (c : String)
    (h : ¬ r.any (fun p => decide (p.1 = c)) = true) : Row.get r c = none := by
  induction r with
  | nil => rfl
  | cons q t ih =>
    simp only [List.any_cons, Bool.or_eq_true, decide_eq_true_eq] at h
    push_neg at h
    rw [Row.get, if_neg h.1]
    exact ih (by simpa using h.2)

theorem Row.get_set_self (r : Row) (c : String) (v : Value) :
    Row.get (Row.set r c v) c = some v := by
  rw [Row.set]
  by_cases h : r.any (fun p => decide (p.1 = c))
  · rw [if_pos h, Row.get_map_update, if_pos h]
  · rw [if_neg h]
    rw [Row.get_append_right _ _ _ (Row.get_eq_none_of_not_any r c h)]
    simp [Row.get]

theorem Row.get_map_update_ne (r : Row) (c c' : String) (v : Value) (h : c' ≠ c) :
    Row.get (r.map (fun p => if p.1 = c then (c, v) else p)) c' = Row.get r c' := by
  induction r with
  | nil => rfl
  | cons q t ih =>
    rw [List.map_cons]
    by_cases hq : q.1 = c
    · rw [if_pos hq, Row.get, if_neg (Ne.symm h), Row.get,
        if_neg (by rw [hq]; exact Ne.symm h)]
      exact ih
    · rw [if_neg hq, Row.get, Row.get]
      by_cases hq' : q.1 = c'
      · rw [if_pos hq', if_pos hq']
      · rw [if_neg hq', if_neg hq']
        exact ih

theorem Row.get_set_ne (r : Row) (c c' : String) (v : Value) (h : c' ≠ c) :
    Row.get (Row.set r c v) c' = Row.get r c' := by
  rw [Row.set]
  split
  · exact Row.get_map_update_ne r c c' v h
  · cases hgr : Row.get r c' with
    | some w => exact Row.get_append_left _ _ _ hgr
    | none =>
      rw [Row.get_append_right _ _ _ hgr, Row.get, if_neg (Ne.symm h)]
      rfl

theorem Row.get_del_ne (r : Row) (c c' : String) (h : c' ≠ c) :
    Row.get (Row.del r c) c' = Row.get r c' := by
  induction r with
  | nil => rfl
  | cons q t ih =>
    by_cases hq : q.1 = c
    · rw [Row.del, List.filter_cons_of_neg (by simpa using hq)]
      rw [Row.get, if_neg (fun hc => h (by rw [← hc, hq]))]
      exact ih
    · rw [Row.del, List.filter_cons_of_pos (by simpa using hq)]
      rw [Row.get, Row.get]
      by_cases hqc : q.1 = c'
      · rw [if_pos hqc, if_pos hqc]
      · rw [if_neg hqc, if_neg hqc]
        exact ih

/-! ### Inversion lemmas for the fallible frame operations -/

theorem except_bind_ok {α β : Type} {a : Except Err α} {f : α → Except Err β} {b : β}
    (h : a.bind f = .ok b) : ∃ x, a = .ok x ∧ f x = .ok b := by
  cases a with
  | ok x => exact ⟨x, rfl, h⟩
  | error e => exact absurd h (by simp [Except.bind])

theorem drop_ok {df out : Frame} {c : String} (h : df.drop c = .ok out) :
    c ∈ df.cols ∧
    out.cols = df.cols.filter (fun c' => decide (c' ≠ c)) ∧
    out.rows = df.rows.map (fun r => Row.del r c) := by
  rw [Frame.drop] at h
  by_cases hc : c ∈ df.cols
  · rw [if_pos hc] at h
    cases h
    exact ⟨hc, rfl, rfl⟩
  · rw [if_neg hc] at h
    exact absurd h (by simp)

theorem select_ok {df out : Frame} {cs : List String} (h : df.select cs = .ok out) :
    out.cols = cs ∧ out.rows = df.rows.map (selectRow cs) ∧
      ∀ c ∈ cs, c ∈ df.cols := by
  rw [Frame.select] at h
  cases hf : cs.find? (fun c => decide (c ∉ df.cols)) with
  | none =>
    rw [hf] at h
    cases h
    refine ⟨rfl, rfl, ?_⟩
    intro c hc
    have := List.find?_eq_none.1 hf c hc
    simpa using this
  | some c => rw [hf] at h; exact absurd h (by simp)

theorem merge_ok {l r out : Frame} {key : String} (h : merge l r key = .ok out) :
    key ∈ l.cols ∧ key ∈ r.cols ∧
    out.cols = l.cols ++ r.cols.filter (fun c => decide (c ≠ key)) ∧
    out.rows = l.rows.flatMap (mergeRow r.rows key) := by
  rw [merge] at h
  by_cases hl : key ∈ l.cols
  · rw [if_pos hl] at h
    by_cases hr : key ∈ r.cols
    · rw [if_pos hr] at h
      cases h
      exact ⟨hl, hr, rfl, rfl⟩
    · rw [if_neg hr] at h
      exact absurd h (by simp)
  · rw [if_neg hl] at h
    exact absurd h (by simp)

/-! ### First-occurrence deduplication lemmas -/

theorem mem_dedupFirst_aux {α : Type} [DecidableEq α] (l : List α) (acc : List α) (a : α) :
    a ∈ l.foldl (fun acc x => if x ∈ acc then acc else acc ++ [x]) acc ↔
      a ∈ acc ∨ a ∈ l := by
  induction l generalizing acc with
  | nil => simp
  | cons x t ih =>
    rw [List.foldl_cons, ih]
    by_cases hx : x ∈ acc
    · rw [if_pos hx]
      constructor
      · rintro (h | h)
        · exact Or.inl h
        · exact Or.inr (List.mem_cons_of_mem x h)
      · rintro (h | h)
        · exact Or.inl h
        · rcases List.mem_cons.1 h with rfl | h
          · exact Or.inl hx
          · exact Or.inr h
    · rw [if_neg hx]
      simp only [List.mem_append, List.mem_singleton, List.mem_cons]
      tauto

theorem mem_dedupFirst {α : Type} [DecidableEq α] (l : List α) (a : α) :
    a ∈ dedupFirst l ↔ a ∈ l := by
  rw [dedupFirst, mem_dedupFirst_aux]
  simp

theorem nodup_dedupFirst_aux {α : Type} [DecidableEq α] (l : List α) (acc : List α)
    (hacc : acc.Nodup) :
    (l.foldl (fun acc x => if x ∈ acc then acc else acc ++ [x]) acc).Nodup := by
  induction l generalizing acc with
  | nil => exact hacc
  | cons x t ih =>
    rw [List.foldl_cons]
    by_cases hx : x ∈ acc
    · rw [if_pos hx]; exact ih acc hacc
    · rw [if_neg hx]
      exact ih _ (by simp [List.nodup_append, hacc, hx])

theorem nodup_dedupFirst {α : Type} [DecidableEq α] (l : List α) :
    (dedupFirst l).Nodup :=
  nodup_dedupFirst_aux l [] List.nodup_nil

/-! ### Quantile-boundary and cut lemmas -/

theorem getD_mem {α : Type} (l : List α) (i : ℕ) (d : α) (h : i < l.length) :
    l.getD i d ∈ l := by
  induction l generalizing i with
  | nil => simp at h
  | cons a t ih =>
    cases i with
    | zero => simp
    | succ n =>
      rw [List.getD_cons_succ]
      exact List.mem_cons_of_mem _ (ih n (by simpa using h))

theorem sorted_getD_zero_le {s : List ℚ} (hs : s.Sorted (· ≤ ·)) {v : ℚ}
    (hv : v ∈ s) : s.getD 0 0 ≤ v := by
  cases s with
  | nil => simp at hv
  | cons a t =>
    rw [List.getD_cons_zero]
    rcases List.mem_cons.1 hv with rfl | hv'
    · exact le_refl v
    · exact (List.sorted_cons.1 hs).1 v hv'

theorem le_sorted_getD_last {s : List ℚ} (hs : s.Sorted (· ≤ ·)) {v : ℚ}
    (hv : v ∈ s) : v ≤ s.getD (s.length - 1) 0 := by
  induction s with
  | nil => simp at hv
  | cons a t ih =>
    rcases List.sorted_cons.1 hs with ⟨ha, ht⟩
    cases t with
    | nil =>
      rcases List.mem_cons.1 hv with rfl | hv'
      · simp
      · simp at hv'
    | cons b t' =>
      have hlen : (a :: b :: t').length - 1 = ((b :: t').length - 1) + 1 := by
        simp
      rw [hlen, List.getD_cons_succ]
      rcases List.mem_cons.1 hv with rfl | hv'
      · exact ha _ (getD_mem _ _ _ (by simp))
      · exact ih ht hv'

theorem qtileAt_zero (s : List ℚ) : qtileAt s 0 = s.getD 0 0 := by
  rw [qtileAt]
  simp only [Nat.zero_mul, Nat.zero_div, Nat.zero_mod, Nat.zero_add, Nat.cast_zero]
  cases hg : s.get? 1 with
  | none => rfl
  | some y =>
    have h0 : mkRat (0 : ℤ) 10 = 0 := by decide
    simp only [h0, qAdd_eq, qMul_eq, qSub_eq]
    ring

theorem qtileAt_ten (s : List ℚ) (h : s ≠ []) :
    qtileAt s 10 = s.getD (s.length - 1) 0 := by
  have hlen : 1 ≤ s.length := List.length_pos.2 h
  rw [qtileAt]
  have hm : 10 * (s.length - 1) / 10 = s.length - 1 :=
    Nat.mul_div_cancel_left _ (by norm_num)
  rw [hm]
  have hnone : s.get? (s.length - 1 + 1) = none := by
    rw [Nat.sub_add_cancel hlen]
    exact List.get?_eq_none.2 (le_refl _)
  rw [hnone]

theorem quantileBins_length (l : List ℚ) : (quantileBins l).length = 11 := rfl

theorem quantileBins_headD (l : List ℚ) :
    (quantileBins l).headD 0 = qtileAt (sortedQ l) 0 := rfl

theorem quantileBins_getLastD (l : List ℚ) :
    (quantileBins l).getLastD 0 = qtileAt (sortedQ l) 10 := rfl

theorem countP_lt_length {α : Type} (p : α → Bool) {l : List α} {x : α}
    (hx : x ∈ l) (hpx : p x = false) : l.countP p < l.length := by
  induction l with
  | nil => simp at hx
  | cons a t ih =>
    rw [List.countP_cons, List.length_cons]
    rcases List.mem_cons.1 hx with rfl | hx'
    · rw [hpx]
      have := List.countP_le_length (p := p) (l := t)
      simp only [Bool.false_eq_true, if_false]
      omega
    · have := ih hx'
      cases hpa : p a
      · simp only [hpa, Bool.false_eq_true, if_false]
        omega
      · simp only [hpa, if_true]
        omega

/-- Every value drawn from the reference population falls in one of the 10
quantile bins computed over that population: the bin index exists and is at
most 9. -/
theorem quantileBins_cut {l : List ℚ} {v : ℚ} (hv : v ∈ l) :
    ∃ i, i ≤ 9 ∧ cutIdx (quantileBins l) v = some i := by
  have hperm := List.perm_insertionSort (· ≤ ·) l
  have hvs : v ∈ sortedQ l := hperm.mem_iff.2 hv
  have hs : (sortedQ l).Sorted (· ≤ ·) := List.sorted_insertionSort _ l
  have hne : sortedQ l ≠ [] := by
    intro h
    rw [h] at hvs
    simp at hvs
  have hlow : qtileAt (sortedQ l) 0 ≤ v := by
    rw [qtileAt_zero]
    exact sorted_getD_zero_le hs hvs
  have hhigh : v ≤ qtileAt (sortedQ l) 10 := by
    rw [qtileAt_ten _ hne]
    exact le_sorted_getD_last hs hvs
  rw [cutIdx, if_pos (by rw [quantileBins_length]; norm_num)]
  rw [if_neg (by
    rw [quantileBins_headD, quantileBins_getLastD]
    push_neg
    exact ⟨hlow, hhigh⟩)]
  refine ⟨_, ?_, rfl⟩
  have hmem : qtileAt (sortedQ l) 10 ∈ quantileBins l := by
    rw [quantileBins]
    simp [sortedQ]
  have hcount :
      (quantileBins l).countP (fun b => decide (b < v)) < 11 := by
    have := countP_lt_length (fun b => decide (b < v)) hmem
      (by simp [not_lt.2 hhigh])
    rwa [quantileBins_length] at this
  omega

/-! ### Stage-shape lemmas -/

theorem setCol_cols (df : Frame) (c : String) (f : Row → Value) :
    (df.setCol c f).cols = if c ∈ df.cols then df.cols else df.cols ++ [c] := rfl

theorem setCol_rows (df : Frame) (c : String) (f : Row → Value) :
    (df.setCol c f).rows = df.rows.map (fun r => Row.set r c (f r)) := rfl

theorem except_ok_bind {α β : Type} (x : α) (f : α → Except Err β) :
    (Except.ok x).bind f = f x := rfl

theorem except_error_bind {α β : Type} (e : Err) (f : α → Except Err β) :
    ((Except.error e : Except Err α)).bind f = .error e := rfl

theorem select_two_ok {df : Frame} {c1 c2 : String} (h1 : c1 ∈ df.cols)
    (h2 : c2 ∈ df.cols) :
    df.select [c1, c2] = .ok ⟨[c1, c2], df.rows.map (selectRow [c1, c2])⟩ := by
  rw [Frame.select]
  have hfind : [c1, c2].find? (fun c => decide (c ∉ df.cols)) = none := by
    rw [List.find?_eq_none]
    intro x hx
    rcases List.mem_cons.1 hx with rfl | hx'
    · simp [h1]
    · rcases List.mem_cons.1 hx' with rfl | hx''
      · simp [h2]
      · simp at hx''
  rw [hfind]

theorem add_age_brackets_ok (df : Frame) (h : ageCol ∈ df.cols) :
    add_age_brackets df = .ok
      ⟨(if ageBracketCol ∈ df.cols then df.cols else df.cols ++ [ageBracketCol]).filter
          (fun c' => decide (c' ≠ ageCol)),
       df.rows.map (fun r => Row.del (Row.set r ageBracketCol (ageBracketValue r)) ageCol)⟩ := by
  have hmem : ageCol ∈ (df.setCol ageBracketCol ageBracketValue).cols := by
    rw [setCol_cols]
    split
    · exact h
    · exact List.mem_append_left _ h
  rw [add_age_brackets, if_pos h, Frame.drop, if_pos hmem, setCol_cols, setCol_rows,
    List.map_map]
  rfl

theorem replace_hospital_ok (shuffled : List Value) (df : Frame)
    (h : hospitalCol ∈ df.cols) :
    replace_hospital_with_random_number shuffled df = .ok
      ⟨(if hospitalIdCol ∈ df.cols then df.cols else df.cols ++ [hospitalIdCol]).filter
          (fun c' => decide (c' ≠ hospitalCol)),
       df.rows.map (fun r =>
         Row.del (Row.set r hospitalIdCol (hospitalIdValue (hospMap shuffled) r))
           hospitalCol)⟩ := by
  have hmem : hospitalCol ∈ (df.setCol hospitalIdCol
      (hospitalIdValue (hospMap shuffled))).cols := by
    rw [setCol_cols]
    split
    · exact h
    · exact List.mem_append_left _ h
  rw [replace_hospital_with_random_number, if_pos h, Frame.drop, if_pos hmem,
    setCol_cols, setCol_rows, List.map_map]
  rfl

theorem mem_setCol_of_mem {c : String} (df : Frame) (c' : String) (f : Row → Value)
    (h : c ∈ df.cols) : c ∈ (df.setCol c' f).cols := by
  rw [setCol_cols]
  split
  · exact h
  · exact List.mem_append_left _ h

theorem self_mem_setCol (df : Frame) (c : String) (f : Row → Value) :
    c ∈ (df.setCol c f).cols := by
  rw [setCol_cols]
  split
  case isTrue hh => exact hh
  case isFalse => exact List.mem_append_right _ (by simp)

theorem put_time_frame_ok (df : Frame) (h : arrivalTimeCol ∈ df.cols) :
    put_time_frame df = .ok ⟨timeAddCols df.cols, df.rows.map timeRow⟩ := by
  have h1 : arrivalTimeCol ∈ (((df.setCol arrivalDateCol arrivalDateValue).setCol
      arrivalHourCol arrivalHourValue).setCol hourRangeCol hourRangeValue).cols :=
    mem_setCol_of_mem _ _ _ (mem_setCol_of_mem _ _ _ (mem_setCol_of_mem _ _ _ h))
  have h2 : arrivalHourCol ∈ ((((df.setCol arrivalDateCol arrivalDateValue).setCol
      arrivalHourCol arrivalHourValue).setCol hourRangeCol hourRangeValue).cols.filter
        (fun c' => decide (c' ≠ arrivalTimeCol))) := by
    rw [List.mem_filter]
    exact ⟨mem_setCol_of_mem _ _ _ (self_mem_setCol _ _ _), by decide⟩
  rw [put_time_frame, if_pos h, Frame.drop, if_pos h1, except_ok_bind, Frame.drop,
    if_pos h2]
  simp only [setCol_cols, setCol_rows, List.map_map]
  rfl

/-- Ages in the closed range `[0, 150]` are cut by the right-closed age
bins to the bracket predicted by `expectedAgeLabel`. -/
theorem cutLabel_age_in_range {q : ℚ} (h0 : 0 ≤ q) (h1 : q ≤ 150) :
    cutLabel ageBins ageLabels q = some (expectedAgeLabel q) := by
  rw [cutLabel, cutIdx, if_pos (by norm_num [ageBins])]
  rw [show ageBins.headD 0 = 0 from rfl, show ageBins.getLastD 0 = 150 from rfl]
  rw [if_neg (by push_neg; exact ⟨h0, h1⟩)]
  simp only [Option.some_bind]
  rw [expectedAgeLabel]
  rcases le_or_lt q 18 with h18 | h18
  · rw [if_pos h18]
    have e25 : ¬ (25 : ℚ) < q := by push_neg; linarith
    have e45 : ¬ (45 : ℚ) < q := by push_neg; linarith
    have e65 : ¬ (65 : ℚ) < q := by push_neg; linarith
    have e85 : ¬ (85 : ℚ) < q := by push_neg; linarith
    have e150 : ¬ (150 : ℚ) < q := by push_neg; linarith
    rcases lt_or_eq_of_le h0 with hq | hq
    · have hc : List.countP (fun b => decide (b < q)) ageBins = 1 := by
        simp [ageBins, List.countP_cons, hq, not_lt.2 h18, e25, e45, e65, e85, e150]
      rw [hc]
      rfl
    · have hc : List.countP (fun b => decide (b < q)) ageBins = 0 := by
        simp [ageBins, List.countP_cons, not_lt.2 hq.ge, not_lt.2 h18, e25, e45,
          e65, e85, e150]
      rw [hc]
      rfl
  · rw [if_neg (not_le.2 h18)]
    rcases le_or_lt q 25 with h25 | h25
    · rw [if_pos h25]
      have hc : List.countP (fun b => decide (b < q)) ageBins = 2 := by
        have p0 : (0 : ℚ) < q := by linarith
        have e45 : ¬ (45 : ℚ) < q := by push_neg; linarith
        have e65 : ¬ (65 : ℚ) < q := by push_neg; linarith
        have e85 : ¬ (85 : ℚ) < q := by push_neg; linarith
        have e150 : ¬ (150 : ℚ) < q := by push_neg; linarith
        simp [ageBins, List.countP_cons, p0, h18, not_lt.2 h25, e45, e65, e85, e150]
      rw [hc]
      rfl
    · rw [if_neg (not_le.2 h25)]
      rcases le_or_lt q 45 with h45 | h45
      · rw [if_pos h45]
        have hc : List.countP (fun b => decide (b < q)) ageBins = 3 := by
          have p0 : (0 : ℚ) < q := by linarith
          have e65 : ¬ (65 : ℚ) < q := by push_neg; linarith
          have e85 : ¬ (85 : ℚ) < q := by push_neg; linarith
          have e150 : ¬ (150 : ℚ) < q := by push_neg; linarith
          simp [ageBins, List.countP_cons, p0, h18, h25, not_lt.2 h45, e65, e85, e150]
        rw [hc]
        rfl
      · rw [if_neg (not_le.2 h45)]
        rcases le_or_lt q 65 with h65 | h65
        · rw [if_pos h65]
          have hc : List.countP (fun b => decide (b < q)) ageBins = 4 := by
            have p0 : (0 : ℚ) < q := by linarith
            have e85 : ¬ (85 : ℚ) < q := by push_neg; linarith
            have e150 : ¬ (150 : ℚ) < q := by push_neg; linarith
            simp [ageBins, List.countP_cons, p0, h18, h25, h45, not_lt.2 h65, e85,
              e150]
          rw [hc]
          rfl
        · rw [if_neg (not_le.2 h65)]
          rcases le_or_lt q 85 with h85 | h85
          · rw [if_pos h85]
            have hc : List.countP (fun b => decide (b < q)) ageBins = 5 := by
              have p0 : (0 : ℚ) < q := by linarith
              have e150 : ¬ (150 : ℚ) < q := by push_neg; linarith
              simp [ageBins, List.countP_cons, p0, h18, h25, h45, h65,
                not_lt.2 h85, e150]
            rw [hc]
            rfl
          · rw [if_neg (not_le.2 h85)]
            have hc : List.countP (fun b => decide (b < q)) ageBins = 6 := by
              have p0 : (0 : ℚ) < q := by linarith
              have e150 : ¬ (150 : ℚ) < q := not_lt.2 h1
              simp [ageBins, List.countP_cons, p0, h18, h25, h45, h65, h85, e150]
            rw [hc]
            rfl

/-- Hours `0 ≤ h ≤ 23` are cut by the right-closed 4-hour bins to the
bracket predicted by `expectedHourLabel`. -/
theorem cutLabel_hour (h : ℕ) (hh : h ≤ 23) :
    cutLabel hourBins hourLabels ((h : ℕ) : ℚ) = some (expectedHourLabel h) := by
  interval_cases h <;> rfl

/-- C2: running the code's pipeline on the 3-row scenario raises the
`NameError` of `put_time_in_4_hour_bins` (its `return nhs_df` names an
undefined variable), so no output is produced; with the intended return
value of the temporal stage, the pipeline produces exactly the 2-row output
the claim describes (the `Other` row dropped, hospitals `A`, `B` mapped to
the distinct IDs 2 and 1, age brackets `0-17` and `25-44`, deciles 2 and 9
against the boundaries precomputed over the reference table). -/
theorem C2_end_to_end_scenario :
    pipeline refFrame shuffledBA inputFrame = .error .nameError ∧
    pipelineIntended refFrame shuffledBA inputFrame = .ok expectedOutput :=
  ⟨rfl, rfl⟩

/-- C3 counterexample: the age-bracketing stage maps age 18 to the bracket
`"0-17"`, not `"18-24"` as the claim states (pandas `cut` bins are
right-closed, so the interior lower boundary 18 belongs to the lower
bracket). -/
theorem C3_age_boundary_counterexample :
    add_age_brackets frameAge18 =
      .ok ⟨[ageBracketCol], [[(ageBracketCol, Value.str "0-17")]]⟩ ∧
    Value.str "0-17" ≠ Value.str "18-24" := by
  constructor
  · rfl
  · decide

/-- C4 counterexample: the temporal stage raises a `NameError` on every
input instead of returning the transformed record set, and its binning
logic sends hour 4 to the bracket `"00-03"`, not `"04-07"` as the claim
states (the bins are right-closed). -/
theorem C4_hour_boundary_counterexample :
    put_time_in_4_hour_bins frameHour4 = .error .nameError ∧
    put_time_frame frameHour4 =
      .ok ⟨[arrivalDateCol, hourRangeCol],
           [[(arrivalDateCol, Value.str "2019-01-01"),
             (hourRangeCol, Value.str "00-03")]]⟩ ∧
    Value.str "00-03" ≠ Value.str "04-07" := by
  refine ⟨rfl, rfl, ?_⟩
  decide

/-- C9 counterexample: `refDup` is row-unique per postcode, yet the
deprivation-decile stage turns a 1-row working set into 2 rows, because the
join is against the deduplicated `(small area, deprivation index)` pairs
and `L1` carries two distinct indices. -/
theorem C9_join_duplication_counterexample :
    (refDup.rows.filterMap (fun r => Row.get r postcodeCol)).Nodup ∧
    (convert_lsoa_to_imd_decile refDup frameOneL1).map (fun f => f.rows.length) =
      .ok 2 ∧
    frameOneL1.rows.length = 1 := by
  refine ⟨by decide, rfl, rfl⟩

/-- C7: the categorical-filtering stage retains exactly the rows whose
gender field is the string `Male` or `Female`; every other row is absent
from its output, and every retained row keeps all of its original field
values unchanged (the output rows are a sublist of the very same input
rows). -/
theorem C7_gender_filter (df : Frame) (h : genderCol ∈ df.cols) :
    ∃ out, remove_non_male_or_female df = .ok out ∧
      out.cols = df.cols ∧
      out.rows = df.rows.filter genderKeep ∧
      ∀ r : Row, r ∈ out.rows ↔ r ∈ df.rows ∧
        (Row.get r genderCol = some (.str "Male") ∨
         Row.get r genderCol = some (.str "Female")) := by
  refine ⟨⟨df.cols, df.rows.filter genderKeep⟩, ?_, rfl, rfl, ?_⟩
  · rw [remove_non_male_or_female, if_pos h]
  · intro r
    rw [List.mem_filter, genderKeep]
    simp

/-- Witness for C7 at the concrete scenario input. -/
theorem C7_gender_filter_witness :
    ∃ out, remove_non_male_or_female inputFrame = .ok out ∧
      out.cols = inputFrame.cols ∧
      out.rows = inputFrame.rows.filter genderKeep ∧
      ∀ r : Row, r ∈ out.rows ↔ r ∈ inputFrame.rows ∧
        (Row.get r genderCol = some (.str "Male") ∨
         Row.get r genderCol = some (.str "Female")) :=
  C7_gender_filter inputFrame (by decide)

/-- C8: every stage that receives a working record set missing the column
it expects fails with the error naming that column (the spec's
`SchemaError`; pandas raises a `KeyError` carrying the column label), and
hence fabricates nothing. -/
theorem C8_missing_column_schema_error :
    (∀ df : Frame, nhsCol ∉ df.cols →
      remove_nhs_numbers df = .error (.schemaError nhsCol)) ∧
    (∀ ref df : Frame, postcodeCol ∈ ref.cols → lsoaCol ∈ ref.cols →
      postcodeCol ∉ df.cols →
      convert_postcodes_to_lsoa ref df = .error (.schemaError postcodeCol)) ∧
    (∀ ref df : Frame, lsoaCol ∈ ref.cols → imdCol ∈ ref.cols →
      lsoaCol ∉ df.cols →
      convert_lsoa_to_imd_decile ref df = .error (.schemaError lsoaCol)) ∧
    (∀ (sh : List Value) (df : Frame), hospitalCol ∉ df.cols →
      replace_hospital_with_random_number sh df = .error (.schemaError hospitalCol)) ∧
    (∀ df : Frame, arrivalTimeCol ∉ df.cols →
      put_time_in_4_hour_bins df = .error (.schemaError arrivalTimeCol)) ∧
    (∀ df : Frame, genderCol ∉ df.cols →
      remove_non_male_or_female df = .error (.schemaError genderCol)) ∧
    (∀ df : Frame, ageCol ∉ df.cols →
      add_age_brackets df = .error (.schemaError ageCol)) := by
  refine ⟨?_, ?_, ?_, ?_, ?_, ?_, ?_⟩
  · intro df h
    rw [remove_nhs_numbers, Frame.drop, if_neg h]
  · intro ref df h1 h2 h3
    simp only [convert_postcodes_to_lsoa, select_two_ok h1 h2, except_ok_bind]
    simp only [merge, if_neg h3, except_error_bind]
  · intro ref df h1 h2 h3
    simp only [convert_lsoa_to_imd_decile, select_two_ok h1 h2, except_ok_bind]
    simp only [merge, if_neg h3, except_error_bind]
  · intro sh df h
    rw [replace_hospital_with_random_number, if_neg h]
  · intro df h
    rw [put_time_in_4_hour_bins, put_time_frame, if_neg h]
    rfl
  · intro df h
    rw [remove_non_male_or_female, if_neg h]
  · intro df h
    rw [add_age_brackets, if_neg h]

/-- Witness for C8: each stage applied to the empty record set (and, for
the join stages, the concrete reference table). -/
theorem C8_missing_column_schema_error_witness :
    remove_nhs_numbers ⟨[], []⟩ = .error (.schemaError nhsCol) ∧
    convert_postcodes_to_lsoa refFrame ⟨[], []⟩ = .error (.schemaError postcodeCol) ∧
    convert_lsoa_to_imd_decile refFrame ⟨[], []⟩ = .error (.schemaError lsoaCol) ∧
    replace_hospital_with_random_number [] ⟨[], []⟩ = .error (.schemaError hospitalCol) ∧
    put_time_in_4_hour_bins ⟨[], []⟩ = .error (.schemaError arrivalTimeCol) ∧
    remove_non_male_or_female ⟨[], []⟩ = .error (.schemaError genderCol) ∧
    add_age_brackets ⟨[], []⟩ = .error (.schemaError ageCol) :=
  ⟨C8_missing_column_schema_error.1 _ (by decide),
   C8_missing_column_schema_error.2.1 refFrame _ (by decide) (by decide) (by decide),
   C8_missing_column_schema_error.2.2.1 refFrame _ (by decide) (by decide) (by decide),
   C8_missing_column_schema_error.2.2.2.1 [] _ (by decide),
   C8_missing_column_schema_error.2.2.2.2.1 _ (by decide),
   C8_missing_column_schema_error.2.2.2.2.2.1 _ (by decide),
   C8_missing_column_schema_error.2.2.2.2.2.2 _ (by decide)⟩

/-- Ages outside the closed bin range `[0, 150]` are cut to no bin. -/
theorem cutLabel_age_out_of_range {q : ℚ} (h : q < 0 ∨ 150 < q) :
    cutLabel ageBins ageLabels q = none := by
  rw [cutLabel, cutIdx, if_pos (by norm_num [ageBins])]
  rw [show ageBins.headD 0 = 0 from rfl, show ageBins.getLastD 0 = 150 from rfl,
    if_pos h]
  rfl

/-- C10: on a record set whose ages may lie outside `[0, 150]` (for example
age 151), the age-bracketing stage raises no error: it keeps every row,
assigns a missing (`NaN`) age bracket to each out-of-range row, and still
drops the raw age column. -/
theorem C10_out_of_range_age (df : Frame) (h : ageCol ∈ df.cols) :
    ∃ out, add_age_brackets df = .ok out ∧
      out.rows.length = df.rows.length ∧
      ageCol ∉ out.cols ∧
      ageBracketCol ∈ out.cols ∧
      ∀ i, (hi : i < df.rows.length) → (hi' : i < out.rows.length) → ∀ q : ℚ,
        (Row.get df.rows[i] ageCol).bind toRatVal = some q →
        (q < 0 ∨ 150 < q) →
        Row.get out.rows[i] ageBracketCol = some .nan := by
  refine ⟨_, add_age_brackets_ok df h, by simp, ?_, ?_, ?_⟩
  · intro hc
    rw [List.mem_filter] at hc
    simp at hc
  · rw [List.mem_filter]
    refine ⟨?_, by decide⟩
    split
    case isTrue hb => exact hb
    case isFalse hb => exact List.mem_append_right _ (by simp)
  · intro i hi hi' q hq hrange
    have hrow : (df.rows.map (fun r =>
        Row.del (Row.set r ageBracketCol (ageBracketValue r)) ageCol))[i] =
        Row.del (Row.set df.rows[i] ageBracketCol (ageBracketValue df.rows[i])) ageCol := by
      simp
    rw [hrow, Row.get_del_ne _ _ _ (by decide), Row.get_set_self]
    rw [ageBracketValue, hq]
    simp [cutLabel_age_out_of_range hrange]

/-- Witness for C10 at the one-row record set with age 151. -/
theorem C10_out_of_range_age_witness :
    ∃ out, add_age_brackets frameAge151 = .ok out ∧
      out.rows.length = frameAge151.rows.length ∧
      ageCol ∉ out.cols ∧
      ageBracketCol ∈ out.cols ∧
      ∀ i, (hi : i < frameAge151.rows.length) → (hi' : i < out.rows.length) →
        ∀ q : ℚ,
        (Row.get frameAge151.rows[i] ageCol).bind toRatVal = some q →
        (q < 0 ∨ 150 < q) →
        Row.get out.rows[i] ageBracketCol = some .nan :=
  C10_out_of_range_age frameAge151 (by decide)

theorem mem_addColIf {c c' : String} {cs : List String} (h : c ∈ cs) :
    c ∈ addColIf c' cs := by
  rw [addColIf]
  split
  · exact h
  · exact List.mem_append_left _ h

theorem self_mem_addColIf {c : String} {cs : List String} : c ∈ addColIf c cs := by
  rw [addColIf]
  split
  case isTrue hh => exact hh
  case isFalse => exact List.mem_append_right _ (by simp)

/-- C3 (amended): the age-bracketing stage maps numeric age through the bin
edges 0,18,25,45,65,85,150 with right-closed intervals and only the overall
lowest edge inclusive — each interior boundary belongs to the lower bracket —
so age 0 maps to `0-17`, age 18 maps to `0-17` (not `18-24`), and age 150
maps to the top bracket, labelled `85-` in the source (rendered `85+` in
the spec); the raw age column is dropped. -/
theorem C3_age_brackets_right_closed (df : Frame) (h : ageCol ∈ df.cols) :
    ∃ out, add_age_brackets df = .ok out ∧
      ageCol ∉ out.cols ∧
      ageBracketCol ∈ out.cols ∧
      out.rows.length = df.rows.length ∧
      ∀ i, (hi : i < df.rows.length) → (hi' : i < out.rows.length) → ∀ q : ℚ,
        (Row.get df.rows[i] ageCol).bind toRatVal = some q →
        0 ≤ q → q ≤ 150 →
        Row.get out.rows[i] ageBracketCol = some (.str (expectedAgeLabel q)) := by
  refine ⟨_, add_age_brackets_ok df h, ?_, ?_, by simp, ?_⟩
  · intro hc
    rw [List.mem_filter] at hc
    simp at hc
  · rw [List.mem_filter]
    refine ⟨?_, by decide⟩
    split
    case isTrue hb => exact hb
    case isFalse hb => exact List.mem_append_right _ (by simp)
  · intro i hi hi' q hq hq0 hq150
    have hrow : (df.rows.map (fun r =>
        Row.del (Row.set r ageBracketCol (ageBracketValue r)) ageCol))[i] =
        Row.del (Row.set df.rows[i] ageBracketCol (ageBracketValue df.rows[i]))
          ageCol := by
      simp
    rw [hrow, Row.get_del_ne _ _ _ (by decide), Row.get_set_self]
    rw [ageBracketValue, hq]
    simp [cutLabel_age_in_range hq0 hq150]

/-- Witness for the amended C3 at the boundary ages 0, 18 and 150, with the
concrete brackets `0-17`, `0-17` and `85-`. -/
theorem C3_age_brackets_right_closed_witness :
    (∃ out, add_age_brackets frameAges = .ok out ∧
      ageCol ∉ out.cols ∧
      ageBracketCol ∈ out.cols ∧
      out.rows.length = frameAges.rows.length ∧
      ∀ i, (hi : i < frameAges.rows.length) → (hi' : i < out.rows.length) →
        ∀ q : ℚ,
        (Row.get frameAges.rows[i] ageCol).bind toRatVal = some q →
        0 ≤ q → q ≤ 150 →
        Row.get out.rows[i] ageBracketCol = some (.str (expectedAgeLabel q))) ∧
    add_age_brackets frameAges = .ok
      ⟨[ageBracketCol],
       [[(ageBracketCol, Value.str "0-17")], [(ageBracketCol, Value.str "0-17")],
        [(ageBracketCol, Value.str "85-")]]⟩ :=
  ⟨C3_age_brackets_right_closed frameAges (by decide), rfl⟩

/-- C4 (amended): the temporal stage's computed transformation derives the
calendar date and assigns every row a 4-hour bracket via right-closed bins
with only the lowest edge inclusive — hour 0 maps to `00-03`, hour 7 to
`04-07`, hour 23 to `20-23`, but hour 4 to `00-03` — and drops the
timestamp and intermediate hour columns; the stage itself then raises a
`NameError` (its `return nhs_df` names an undefined variable) instead of
returning this record set. -/
theorem C4_time_bins_right_closed (df : Frame) (h : arrivalTimeCol ∈ df.cols) :
    (∃ out, put_time_frame df = .ok out ∧
      arrivalTimeCol ∉ out.cols ∧
      arrivalHourCol ∉ out.cols ∧
      arrivalDateCol ∈ out.cols ∧
      hourRangeCol ∈ out.cols ∧
      out.rows.length = df.rows.length ∧
      ∀ i, (hi : i < df.rows.length) → (hi' : i < out.rows.length) →
        ∀ (d : String) (hr : ℕ),
          Row.get df.rows[i] arrivalTimeCol = some (.ts d hr) → hr ≤ 23 →
          Row.get out.rows[i] arrivalDateCol = some (.str d) ∧
          Row.get out.rows[i] hourRangeCol =
            some (.str (expectedHourLabel hr))) ∧
    put_time_in_4_hour_bins df = .error .nameError := by
  constructor
  · refine ⟨_, put_time_frame_ok df h, ?_, ?_, ?_, ?_, by simp, ?_⟩
    · intro hc
      rw [timeAddCols, List.mem_filter, List.mem_filter] at hc
      simp at hc
    · intro hc
      rw [timeAddCols, List.mem_filter] at hc
      simp at hc
    · rw [timeAddCols, List.mem_filter, List.mem_filter]
      refine ⟨⟨?_, by decide⟩, by decide⟩
      exact mem_addColIf (mem_addColIf self_mem_addColIf)
    · rw [timeAddCols, List.mem_filter, List.mem_filter]
      refine ⟨⟨?_, by decide⟩, by decide⟩
      exact self_mem_addColIf
    · intro i hi hi' d hr hts hle
      have hrow : (df.rows.map timeRow)[i] = timeRow df.rows[i] := by simp
      rw [hrow, timeRow]
      constructor
      · rw [Row.get_del_ne _ _ _ (by decide), Row.get_del_ne _ _ _ (by decide),
          Row.get_set_ne _ _ _ _ (by decide), timeRow2,
          Row.get_set_ne _ _ _ _ (by decide), timeRow1, Row.get_set_self]
        rw [arrivalDateValue, tsOf, hts]
      · rw [Row.get_del_ne _ _ _ (by decide), Row.get_del_ne _ _ _ (by decide),
          Row.get_set_self]
        have hgr2 : Row.get (timeRow2 df.rows[i]) arrivalHourCol =
            some (.int (hr : ℤ)) := by
          rw [timeRow2, Row.get_set_self, arrivalHourValue, tsOf, timeRow1,
            Row.get_set_ne _ _ _ _ (by decide), hts]
        rw [hourRangeValue, hgr2]
        have htr : ((hr : ℤ) : ℚ) = ((hr : ℕ) : ℚ) := by push_cast; ring
        simp only [Option.some_bind, toRatVal, htr, cutLabel_hour hr hle]
  · rw [put_time_in_4_hour_bins, put_time_frame_ok df h]
    rfl

/-- Witness for the amended C4 at the boundary hours 0, 7 and 23, with the
stage's `NameError` and the concrete brackets `00-03`, `04-07`, `20-23`. -/
theorem C4_time_bins_right_closed_witness :
    ((∃ out, put_time_frame frameHours = .ok out ∧
      arrivalTimeCol ∉ out.cols ∧
      arrivalHourCol ∉ out.cols ∧
      arrivalDateCol ∈ out.cols ∧
      hourRangeCol ∈ out.cols ∧
      out.rows.length = frameHours.rows.length ∧
      ∀ i, (hi : i < frameHours.rows.length) → (hi' : i < out.rows.length) →
        ∀ (d : String) (hr : ℕ),
          Row.get frameHours.rows[i] arrivalTimeCol = some (.ts d hr) → hr ≤ 23 →
          Row.get out.rows[i] arrivalDateCol = some (.str d) ∧
          Row.get out.rows[i] hourRangeCol =
            some (.str (expectedHourLabel hr))) ∧
     put_time_in_4_hour_bins frameHours = .error .nameError) ∧
    put_time_frame frameHours = .ok
      ⟨[arrivalDateCol, hourRangeCol],
       [[(arrivalDateCol, Value.str "2019-01-02"), (hourRangeCol, Value.str "00-03")],
        [(arrivalDateCol, Value.str "2019-01-02"), (hourRangeCol, Value.str "04-07")],
        [(arrivalDateCol, Value.str "2019-01-02"), (hourRangeCol, Value.str "20-23")]]⟩ :=
  ⟨C4_time_bins_right_closed frameHours (by decide), rfl⟩

/-! ### Lookup in the zipped hospital dictionary -/

theorem mapLookup_zip_some : ∀ (xs : List Value) (k : ℕ) (v : Value), v ∈ xs →
    ∃ i, mapLookup (xs.zip (List.range' k xs.length)) v = some i ∧
      k ≤ i ∧ i < k + xs.length := by
  intro xs
  induction xs with
  | nil => intro k v hv; simp at hv
  | cons x t ih =>
    intro k v hv
    rw [List.length_cons, List.range'_succ, List.zip_cons_cons, mapLookup]
    by_cases hx : x = v
    · rw [if_pos hx]
      exact ⟨k, rfl, le_refl k, by omega⟩
    · rw [if_neg hx]
      rcases List.mem_cons.1 hv with rfl | hv'
      · exact absurd rfl hx
      · obtain ⟨i, hi, hk, hlt⟩ := ih (k + 1) v hv'
        exact ⟨i, hi, by omega, by omega⟩

theorem mapLookup_zip_bounds : ∀ (xs : List Value) (k : ℕ) (v : Value) (i : ℕ),
    mapLookup (xs.zip (List.range' k xs.length)) v = some i →
    k ≤ i ∧ i < k + xs.length := by
  intro xs
  induction xs with
  | nil => intro k v i h; simp [mapLookup] at h
  | cons x t ih =>
    intro k v i h
    rw [List.length_cons, List.range'_succ, List.zip_cons_cons, mapLookup] at h
    rw [List.length_cons]
    by_cases hx : x = v
    · rw [if_pos hx] at h
      cases h
      omega
    · rw [if_neg hx] at h
      have := ih (k + 1) v i h
      omega

theorem mapLookup_zip_inj : ∀ (xs : List Value), xs.Nodup →
    ∀ (k : ℕ) (v1 v2 : Value) (i : ℕ),
    mapLookup (xs.zip (List.range' k xs.length)) v1 = some i →
    mapLookup (xs.zip (List.range' k xs.length)) v2 = some i → v1 = v2 := by
  intro xs
  induction xs with
  | nil => intro _ k v1 v2 i h; simp [mapLookup] at h
  | cons x t ih =>
    intro hnd k v1 v2 i h1 h2
    rw [List.length_cons, List.range'_succ, List.zip_cons_cons, mapLookup] at h1 h2
    rcases List.nodup_cons.1 hnd with ⟨hx, hndt⟩
    by_cases hx1 : x = v1
    · rw [if_pos hx1] at h1
      have hik : k = i := by injection h1
      by_cases hx2 : x = v2
      · rw [← hx1, ← hx2]
      · rw [if_neg hx2] at h2
        have hb := mapLookup_zip_bounds t (k + 1) v2 i h2
        exfalso
        omega
    · rw [if_neg hx1] at h1
      by_cases hx2 : x = v2
      · rw [if_pos hx2] at h2
        have hik : k = i := by injection h2
        have hb := mapLookup_zip_bounds t (k + 1) v1 i h1
        exfalso
        omega
      · rw [if_neg hx2] at h2
        exact ih hndt (k + 1) v1 v2 i h1 h2

theorem mapLookup_zip_surj : ∀ (xs : List Value), xs.Nodup → ∀ (k i : ℕ),
    k ≤ i → i < k + xs.length →
    ∃ v ∈ xs, mapLookup (xs.zip (List.range' k xs.length)) v = some i := by
  intro xs
  induction xs with
  | nil =>
    intro _ k i h1 h2
    exfalso
    rw [List.length_nil] at h2
    omega
  | cons x t ih =>
    intro hnd k i h1 h2
    rw [List.length_cons] at h2
    rw [List.length_cons, List.range'_succ, List.zip_cons_cons]
    rcases List.nodup_cons.1 hnd with ⟨hx, hndt⟩
    by_cases hik : i = k
    · refine ⟨x, List.mem_cons_self x t, ?_⟩
      rw [mapLookup, if_pos rfl, hik]
    · obtain ⟨v, hv, hlook⟩ := ih hndt (k + 1) i (by omega) (by omega)
      have hxv : ¬ x = v := fun e => hx (e ▸ hv)
      refine ⟨v, List.mem_cons_of_mem _ hv, ?_⟩
      rw [mapLookup, if_neg hxv]
      exact hlook

/-- C5: the hospital-pseudonymization stage, for any shuffle of the `N`
distinct hospital names of the working set, assigns IDs via a bijection
from the distinct names onto `[1, N]` (every distinct name gets exactly one
ID in range, no two names share an ID, every ID in `[1, N]` is used), every
row receives the ID of its hospital, and the hospital-name column is
replaced by the ID column. -/
theorem C5_hospital_pseudonymization (df : Frame) (shuffled : List Value)
    (h : hospitalCol ∈ df.cols)
    (hperm : shuffled.Perm
      (dedupFirst (df.rows.filterMap (fun r => Row.get r hospitalCol)))) :
    ∃ out, replace_hospital_with_random_number shuffled df = .ok out ∧
      hospitalCol ∉ out.cols ∧
      hospitalIdCol ∈ out.cols ∧
      out.rows.length = df.rows.length ∧
      shuffled.length =
        (dedupFirst (df.rows.filterMap (fun r => Row.get r hospitalCol))).length ∧
      (∀ v ∈ shuffled, ∃ i, mapLookup (hospMap shuffled) v = some i ∧
        1 ≤ i ∧ i ≤ shuffled.length) ∧
      (∀ v1 v2 i, mapLookup (hospMap shuffled) v1 = some i →
        mapLookup (hospMap shuffled) v2 = some i → v1 = v2) ∧
      (∀ i, 1 ≤ i → i ≤ shuffled.length →
        ∃ v ∈ shuffled, mapLookup (hospMap shuffled) v = some i) ∧
      (∀ r ∈ df.rows, ∀ v, Row.get r hospitalCol = some v → v ∈ shuffled) ∧
      (∀ j, (hj : j < df.rows.length) → (hj' : j < out.rows.length) → ∀ v,
        Row.get df.rows[j] hospitalCol = some v →
        ∃ i, mapLookup (hospMap shuffled) v = some i ∧
          Row.get out.rows[j] hospitalIdCol = some (.int (i : ℤ))) := by
  have hnd : shuffled.Nodup := hperm.nodup_iff.2 (nodup_dedupFirst _)
  have hcover : ∀ r ∈ df.rows, ∀ v, Row.get r hospitalCol = some v →
      v ∈ shuffled := by
    intro r hr v hv
    refine hperm.mem_iff.2 ((mem_dedupFirst _ _).2 ?_)
    exact List.mem_filterMap.2 ⟨r, hr, hv⟩
  refine ⟨_, replace_hospital_ok shuffled df h, ?_, ?_, by simp,
    hperm.length_eq, ?_, ?_, ?_, hcover, ?_⟩
  · intro hc
    rw [List.mem_filter] at hc
    simp at hc
  · rw [List.mem_filter]
    refine ⟨?_, by decide⟩
    split
    case isTrue hb => exact hb
    case isFalse hb => exact List.mem_append_right _ (by simp)
  · intro v hv
    obtain ⟨i, hi, h1, h2⟩ := mapLookup_zip_some shuffled 1 v hv
    exact ⟨i, hi, h1, by omega⟩
  · intro v1 v2 i h1 h2
    exact mapLookup_zip_inj shuffled hnd 1 v1 v2 i h1 h2
  · intro i h1 h2
    exact mapLookup_zip_surj shuffled hnd 1 i h1 (by omega)
  · intro j hj hj' v hv
    have hvs : v ∈ shuffled := hcover _ (List.getElem_mem hj) v hv
    obtain ⟨i, hi, _, _⟩ := mapLookup_zip_some shuffled 1 v hvs
    refine ⟨i, hi, ?_⟩
    have hrow : (df.rows.map (fun r =>
        Row.del (Row.set r hospitalIdCol (hospitalIdValue (hospMap shuffled) r))
          hospitalCol))[j] =
        Row.del (Row.set df.rows[j] hospitalIdCol
          (hospitalIdValue (hospMap shuffled) df.rows[j])) hospitalCol := by
      simp
    have hi' : mapLookup (hospMap shuffled) v = some i := hi
    rw [hrow, Row.get_del_ne _ _ _ (by decide), Row.get_set_self]
    simp only [hospitalIdValue, hv, hi']

/-- Witness for C5 at the concrete scenario input with the shuffle `[B, A]`:
hospital `A` gets ID 2 and `B` gets ID 1. -/
theorem C5_hospital_pseudonymization_witness :
    (∃ out, replace_hospital_with_random_number shuffledBA inputFrame = .ok out ∧
      hospitalCol ∉ out.cols ∧
      hospitalIdCol ∈ out.cols ∧
      out.rows.length = inputFrame.rows.length ∧
      shuffledBA.length =
        (dedupFirst (inputFrame.rows.filterMap
          (fun r => Row.get r hospitalCol))).length ∧
      (∀ v ∈ shuffledBA, ∃ i, mapLookup (hospMap shuffledBA) v = some i ∧
        1 ≤ i ∧ i ≤ shuffledBA.length) ∧
      (∀ v1 v2 i, mapLookup (hospMap shuffledBA) v1 = some i →
        mapLookup (hospMap shuffledBA) v2 = some i → v1 = v2) ∧
      (∀ i, 1 ≤ i → i ≤ shuffledBA.length →
        ∃ v ∈ shuffledBA, mapLookup (hospMap shuffledBA) v = some i) ∧
      (∀ r ∈ inputFrame.rows, ∀ v, Row.get r hospitalCol = some v →
        v ∈ shuffledBA) ∧
      (∀ j, (hj : j < inputFrame.rows.length) → (hj' : j < out.rows.length) →
        ∀ v, Row.get inputFrame.rows[j] hospitalCol = some v →
        ∃ i, mapLookup (hospMap shuffledBA) v = some i ∧
          Row.get out.rows[j] hospitalIdCol = some (.int (i : ℤ)))) ∧
    mapLookup (hospMap shuffledBA) (Value.str "A") = some 2 ∧
    mapLookup (hospMap shuffledBA) (Value.str "B") = some 1 :=
  ⟨C5_hospital_pseudonymization inputFrame shuffledBA (by decide) (by decide),
   rfl, rfl⟩

/-! ### Inversion of the join stages -/

theorem convert_postcodes_inv {ref df out : Frame}
    (h : convert_postcodes_to_lsoa ref df = .ok out) :
    ∃ sel, ref.select [postcodeCol, lsoaCol] = .ok sel ∧
      ∃ merged, merge df sel postcodeCol = .ok merged ∧
        merged.drop postcodeCol = .ok out := by
  rw [convert_postcodes_to_lsoa] at h
  obtain ⟨sel, hsel, h2⟩ := except_bind_ok h
  obtain ⟨merged, hm, hd⟩ := except_bind_ok h2
  exact ⟨sel, hsel, merged, hm, hd⟩

theorem convert_lsoa_inv {ref df out : Frame}
    (h : convert_lsoa_to_imd_decile ref df = .ok out) :
    ∃ sel, ref.select [lsoaCol, imdCol] = .ok sel ∧
      ∃ merged, merge df ⟨sel.cols, dedupFirst sel.rows⟩ lsoaCol = .ok merged ∧
        ∃ d1, (merged.setCol decileCol
            (decileCell (quantileBins (colRats ref imdCol)))).drop imdCol = .ok d1 ∧
          d1.drop lsoaCol = .ok out := by
  rw [convert_lsoa_to_imd_decile] at h
  obtain ⟨sel, hsel, h2⟩ := except_bind_ok h
  obtain ⟨merged, hm, h3⟩ := except_bind_ok h2
  obtain ⟨d1, hd1, hd2⟩ := except_bind_ok h3
  exact ⟨sel, hsel, merged, hm, d1, hd1, hd2⟩

theorem mem_setCol_cols_elim {c : String} {df : Frame} {c' : String}
    {f : Row → Value} (h : c ∈ (df.setCol c' f).cols) : c ∈ df.cols ∨ c = c' := by
  rw [setCol_cols] at h
  split at h
  · exact Or.inl h
  · rcases List.mem_append.1 h with hh | hh
    · exact Or.inl hh
    · rw [List.mem_singleton] at hh
      exact Or.inr hh

/-- C1: the identifier-removal stage drops the national-health-identifier
column and removes no rows; the geographic stage's output never carries the
postcode column and preserves the absence of the identifier column; and
every later stage only ever adds its own derived columns (decile, hospital
ID, date, hour bracket, age bracket), so the absence of both identifier
columns is preserved to any output the pipeline produces. -/
theorem C1_no_identifier_columns :
    (∀ df : Frame, nhsCol ∈ df.cols → ∃ out, remove_nhs_numbers df = .ok out ∧
      nhsCol ∉ out.cols ∧ out.rows.length = df.rows.length) ∧
    (∀ ref df out : Frame, convert_postcodes_to_lsoa ref df = .ok out →
      postcodeCol ∉ out.cols ∧ (nhsCol ∉ df.cols → nhsCol ∉ out.cols)) ∧
    (∀ ref df out : Frame, convert_lsoa_to_imd_decile ref df = .ok out →
      ∀ c, c ∉ df.cols → c ≠ imdCol → c ≠ decileCol → c ∉ out.cols) ∧
    (∀ (sh : List Value) (df out : Frame),
      replace_hospital_with_random_number sh df = .ok out →
      ∀ c, c ∉ df.cols → c ≠ hospitalIdCol → c ∉ out.cols) ∧
    (∀ df out : Frame, put_time_frame df = .ok out →
      ∀ c, c ∉ df.cols → c ≠ arrivalDateCol → c ≠ hourRangeCol → c ∉ out.cols) ∧
    (∀ df out : Frame, remove_non_male_or_female df = .ok out →
      out.cols = df.cols) ∧
    (∀ df out : Frame, add_age_brackets df = .ok out →
      ∀ c, c ∉ df.cols → c ≠ ageBracketCol → c ∉ out.cols) := by
  refine ⟨?_, ?_, ?_, ?_, ?_, ?_, ?_⟩
  · intro df h
    rw [remove_nhs_numbers, Frame.drop, if_pos h]
    refine ⟨_, rfl, ?_, by simp⟩
    intro hc
    rw [List.mem_filter] at hc
    simp at hc
  · intro ref df out h
    obtain ⟨sel, hsel, merged, hm, hd⟩ := convert_postcodes_inv h
    obtain ⟨hselc, -⟩ := select_ok hsel
    obtain ⟨-, -, hmc, -⟩ := merge_ok hm
    obtain ⟨-, hdc, -⟩ := drop_ok hd
    constructor
    · rw [hdc]
      intro hc
      rw [List.mem_filter] at hc
      simp at hc
    · intro hnhs hc
      rw [hdc, List.mem_filter] at hc
      rcases hc with ⟨hc1, -⟩
      rw [hmc, List.mem_append] at hc1
      rcases hc1 with hc1 | hc1
      · exact hnhs hc1
      · rw [hselc] at hc1
        revert hc1
        decide
  · intro ref df out h c hc hcimd hcdec
    obtain ⟨sel, hsel, merged, hm, d1, hd1, hd2⟩ := convert_lsoa_inv h
    obtain ⟨hselc, -⟩ := select_ok hsel
    obtain ⟨-, -, hmc, -⟩ := merge_ok hm
    obtain ⟨-, hd1c, -⟩ := drop_ok hd1
    obtain ⟨-, hd2c, -⟩ := drop_ok hd2
    intro hout
    rw [hd2c, List.mem_filter] at hout
    rcases hout with ⟨hout, -⟩
    rw [hd1c, List.mem_filter] at hout
    rcases hout with ⟨hout, -⟩
    rcases mem_setCol_cols_elim hout with hout | hout
    · rw [hmc, List.mem_append] at hout
      rcases hout with hout | hout
      · exact hc hout
      · rw [hselc] at hout
        rw [show List.filter (fun c => decide (c ≠ lsoaCol)) [lsoaCol, imdCol] =
          [imdCol] from rfl, List.mem_singleton] at hout
        exact hcimd hout
    · exact hcdec hout
  · intro sh df out h c hc hcid hout
    rw [replace_hospital_with_random_number] at h
    by_cases hh : hospitalCol ∈ df.cols
    · rw [if_pos hh] at h
      obtain ⟨-, hdc, -⟩ := drop_ok h
      rw [hdc, List.mem_filter] at hout
      rcases hout with ⟨hout, -⟩
      rcases mem_setCol_cols_elim hout with hout | hout
      · exact hc hout
      · exact hcid hout
    · rw [if_neg hh] at h
      exact absurd h (by simp)
  · intro df out h c hc hcd hcr hout
    rw [put_time_frame] at h
    by_cases hh : arrivalTimeCol ∈ df.cols
    · rw [if_pos hh] at h
      obtain ⟨d4, hd4, hd5⟩ := except_bind_ok h
      obtain ⟨-, h4c, -⟩ := drop_ok hd4
      obtain ⟨-, h5c, -⟩ := drop_ok hd5
      rw [h5c, List.mem_filter] at hout
      rcases hout with ⟨hout, hne⟩
      rw [h4c, List.mem_filter] at hout
      rcases hout with ⟨hout, -⟩
      rcases mem_setCol_cols_elim hout with hout | hout
      · rcases mem_setCol_cols_elim hout with hout | hout
        · rcases mem_setCol_cols_elim hout with hout | hout
          · exact hc hout
          · exact hcd hout
        · rw [decide_eq_true_eq] at hne
          exact hne hout
      · exact hcr hout
    · rw [if_neg hh] at h
      exact absurd h (by simp)
  · intro df out h
    rw [remove_non_male_or_female] at h
    by_cases hh : genderCol ∈ df.cols
    · rw [if_pos hh] at h
      cases h
      rfl
    · rw [if_neg hh] at h
      exact absurd h (by simp)
  · intro df out h c hc hcb hout
    rw [add_age_brackets] at h
    by_cases hh : ageCol ∈ df.cols
    · rw [if_pos hh] at h
      obtain ⟨-, hdc, -⟩ := drop_ok h
      rw [hdc, List.mem_filter] at hout
      rcases hout with ⟨hout, -⟩
      rcases mem_setCol_cols_elim hout with hout | hout
      · exact hc hout
      · exact hcb hout
    · rw [if_neg hh] at h
      exact absurd h (by simp)

/-- Witness for C1: each conjunct instantiated at a concrete record set,
with the stage outputs evaluated. -/
theorem C1_no_identifier_columns_witness :
    (∃ out, remove_nhs_numbers inputFrame = .ok out ∧ nhsCol ∉ out.cols ∧
      out.rows.length = inputFrame.rows.length) ∧
    (postcodeCol ∉ (⟨[lsoaCol], [[(lsoaCol, Value.str "L4")]]⟩ : Frame).cols ∧
      (nhsCol ∉ (⟨[postcodeCol], [[(postcodeCol, Value.str "P4")]]⟩ : Frame).cols →
        nhsCol ∉ (⟨[lsoaCol], [[(lsoaCol, Value.str "L4")]]⟩ : Frame).cols)) ∧
    nhsCol ∉ (⟨[decileCol], [[(decileCol, Value.int 2)]]⟩ : Frame).cols ∧
    nhsCol ∉ (⟨[hospitalIdCol], [[(hospitalIdCol, Value.int 1)]]⟩ : Frame).cols ∧
    nhsCol ∉ (⟨[arrivalDateCol, hourRangeCol],
      [[(arrivalDateCol, Value.str "2019-01-01"),
        (hourRangeCol, Value.str "00-03")]]⟩ : Frame).cols ∧
    (⟨[genderCol], [[(genderCol, Value.str "Male")]]⟩ : Frame).cols =
      (⟨[genderCol],
        [[(genderCol, Value.str "Male")], [(genderCol, Value.str "Other")]]⟩ :
          Frame).cols ∧
    nhsCol ∉ (⟨[ageBracketCol], [[(ageBracketCol, Value.str "0-17")]]⟩ : Frame).cols :=
  ⟨C1_no_identifier_columns.1 inputFrame (by decide),
   C1_no_identifier_columns.2.1 refFrame
     ⟨[postcodeCol], [[(postcodeCol, Value.str "P4")]]⟩ _ rfl,
   C1_no_identifier_columns.2.2.1 refFrame
     ⟨[lsoaCol], [[(lsoaCol, Value.str "L4")]]⟩ _ rfl nhsCol (by decide)
     (by decide) (by decide),
   C1_no_identifier_columns.2.2.2.1 [Value.str "A"]
     ⟨[hospitalCol], [[(hospitalCol, Value.str "A")]]⟩ _ rfl nhsCol (by decide)
     (by decide),
   C1_no_identifier_columns.2.2.2.2.1 frameHour4 _ rfl nhsCol (by decide)
     (by decide) (by decide),
   C1_no_identifier_columns.2.2.2.2.2.1
     ⟨[genderCol],
      [[(genderCol, Value.str "Male")], [(genderCol, Value.str "Other")]]⟩ _ rfl,
   C1_no_identifier_columns.2.2.2.2.2.2 frameAge18 _ rfl nhsCol (by decide)
     (by decide)⟩

/-- The deprivation-decile stage's full shape when the working set carries
the small-area column and the reference table carries both lookup
columns. -/
theorem convert_lsoa_ok (ref df : Frame) (hl : lsoaCol ∈ df.cols)
    (h1 : lsoaCol ∈ ref.cols) (h2 : imdCol ∈ ref.cols) :
    convert_lsoa_to_imd_decile ref df = .ok
      ⟨((addColIf decileCol
            (df.cols ++ [lsoaCol, imdCol].filter
              (fun c => decide (c ≠ lsoaCol)))).filter
          (fun c => decide (c ≠ imdCol))).filter
          (fun c => decide (c ≠ lsoaCol)),
       (((df.rows.flatMap (mergeRow (lsoaPairs ref) lsoaCol)).map
           (fun m => Row.set m decileCol
             (decileCell (quantileBins (colRats ref imdCol)) m))).map
          (fun m => Row.del m imdCol)).map (fun m => Row.del m lsoaCol)⟩ := by
  simp only [convert_lsoa_to_imd_decile, select_two_ok h1 h2, except_ok_bind]
  rw [merge, if_pos hl, if_pos (show lsoaCol ∈
    (⟨[lsoaCol, imdCol], dedupFirst ((ref.rows.map
      (selectRow [lsoaCol, imdCol])))⟩ : Frame).cols from
        List.mem_cons_self lsoaCol [imdCol])]
  simp only [except_ok_bind]
  rw [Frame.drop, if_pos ?c1]
  case c1 =>
    rw [setCol_cols]
    split
    case isTrue hb => exact List.mem_append_right _ (by decide)
    case isFalse hb =>
      exact List.mem_append_left _ (List.mem_append_right _ (by decide))
  simp only [except_ok_bind]
  rw [Frame.drop, if_pos ?c2]
  case c2 =>
    rw [List.mem_filter]
    refine ⟨?_, by decide⟩
    rw [setCol_cols]
    split
    case isTrue hb => exact List.mem_append_left _ hl
    case isFalse hb =>
      exact List.mem_append_left _ (List.mem_append_left _ hl)
  rfl

/-! ### Row-count bounds for the joins -/

theorem filterMap_ext {α β : Type} {l : List α} {f g : α → Option β}
    (h : ∀ a ∈ l, f a = g a) : l.filterMap f = l.filterMap g := by
  induction l with
  | nil => rfl
  | cons a t ih =>
    rw [List.filterMap_cons, List.filterMap_cons, h a (List.mem_cons_self a t),
      ih (fun x hx => h x (List.mem_cons_of_mem a hx))]

/-- When the key values of the right rows are pairwise distinct, at most one
right row matches any key value. -/
theorem matches_length_le_one {key : String} :
    ∀ (rows : List Row), (rows.filterMap (fun s => Row.get s key)).Nodup →
    ∀ v : Value,
      (rows.filter (fun s => decide (Row.get s key = some v))).length ≤ 1 := by
  intro rows
  induction rows with
  | nil => intro _ v; simp
  | cons a t ih =>
    intro hnd v
    cases ha : Row.get a key with
    | none =>
      simp only [List.filterMap_cons, ha] at hnd
      rw [List.filter_cons_of_neg (by simp [ha])]
      exact ih hnd v
    | some w =>
      simp only [List.filterMap_cons, ha] at hnd
      rcases List.nodup_cons.1 hnd with ⟨hw, hndt⟩
      by_cases hv : w = v
      · subst hv
        rw [List.filter_cons_of_pos (by simp [ha])]
        have hnil : t.filter (fun s => decide (Row.get s key = some w)) = [] := by
          rw [List.filter_eq_nil_iff]
          intro s hs
          simp only [decide_eq_true_eq]
          intro hsv
          exact hw (List.mem_filterMap.2 ⟨s, hs, hsv⟩)
        rw [hnil]
        simp
      · rw [List.filter_cons_of_neg (by simp [ha, hv])]
        exact ih hndt v

theorem flatMap_length_le {α β : Type} (l : List α) (f : α → List β)
    (h : ∀ a ∈ l, (f a).length ≤ 1) : (l.flatMap f).length ≤ l.length := by
  induction l with
  | nil => simp
  | cons a t ih =>
    rw [List.flatMap_cons, List.length_append, List.length_cons]
    have h1 := h a (List.mem_cons_self a t)
    have h2 := ih (fun x hx => h x (List.mem_cons_of_mem a hx))
    omega

theorem merge_rows_length_le {l r out : Frame} {key : String}
    (hu : (r.rows.filterMap (fun s => Row.get s key)).Nodup)
    (h : merge l r key = .ok out) : out.rows.length ≤ l.rows.length := by
  obtain ⟨-, -, -, hrows⟩ := merge_ok h
  rw [hrows]
  apply flatMap_length_le
  intro a ha
  cases hga : Row.get a key with
  | none => simp [mergeRow, hga]
  | some v =>
    simp only [mergeRow, hga, List.length_map]
    exact matches_length_le_one r.rows hu v

/-- Selecting the columns `[c, c2]` of a row preserves the lookup of `c`. -/
theorem get_selectRow_first {c c2 : String} (r : Row) (hne : c2 ≠ c) :
    Row.get (selectRow [c, c2] r) c = Row.get r c := by
  cases h1 : Row.get r c with
  | some v => simp [selectRow, h1, Row.get]
  | none =>
    cases h2 : Row.get r c2 with
    | some w => simp [selectRow, h1, h2, Row.get, hne]
    | none => simp [selectRow, h1, h2, Row.get]

/-- C9 (amended): for every reference table that is row-unique per postcode
AND whose deduplicated (small-area, deprivation-index) pairs carry at most
one pair per small area, no pipeline stage increases the row count of the
working record set; in particular each of the two joins pairs every working
row with at most one matching reference row. -/
theorem C9_row_count_nonincreasing :
    (∀ df out : Frame, remove_nhs_numbers df = .ok out →
      out.rows.length = df.rows.length) ∧
    (∀ ref df out : Frame,
      (ref.rows.filterMap (fun s => Row.get s postcodeCol)).Nodup →
      convert_postcodes_to_lsoa ref df = .ok out →
      out.rows.length ≤ df.rows.length) ∧
    (∀ ref df out : Frame,
      ((dedupFirst (ref.rows.map (selectRow [lsoaCol, imdCol]))).filterMap
        (fun s => Row.get s lsoaCol)).Nodup →
      convert_lsoa_to_imd_decile ref df = .ok out →
      out.rows.length ≤ df.rows.length) ∧
    (∀ (sh : List Value) (df out : Frame),
      replace_hospital_with_random_number sh df = .ok out →
      out.rows.length = df.rows.length) ∧
    (∀ df out : Frame, put_time_frame df = .ok out →
      out.rows.length = df.rows.length) ∧
    (∀ df out : Frame, remove_non_male_or_female df = .ok out →
      out.rows.length ≤ df.rows.length) ∧
    (∀ df out : Frame, add_age_brackets df = .ok out →
      out.rows.length = df.rows.length) := by
  refine ⟨?_, ?_, ?_, ?_, ?_, ?_, ?_⟩
  · intro df out h
    obtain ⟨-, -, hr⟩ := drop_ok h
    rw [hr, List.length_map]
  · intro ref df out hu h
    obtain ⟨sel, hsel, merged, hm, hd⟩ := convert_postcodes_inv h
    obtain ⟨-, hselr, -⟩ := select_ok hsel
    have hu' : (sel.rows.filterMap (fun s => Row.get s postcodeCol)).Nodup := by
      rw [hselr, List.filterMap_map]
      have hext : List.filterMap
          ((fun s => Row.get s postcodeCol) ∘ selectRow [postcodeCol, lsoaCol])
          ref.rows =
          List.filterMap (fun s => Row.get s postcodeCol) ref.rows :=
        filterMap_ext (fun s _ => get_selectRow_first s (by decide))
      rw [hext]
      exact hu
    have h1 := merge_rows_length_le hu' hm
    obtain ⟨-, -, hdr⟩ := drop_ok hd
    rw [hdr, List.length_map]
    exact h1
  · intro ref df out hu h
    obtain ⟨sel, hsel, merged, hm, d1, hd1, hd2⟩ := convert_lsoa_inv h
    obtain ⟨-, hselr, -⟩ := select_ok hsel
    have hu' : ((⟨sel.cols, dedupFirst sel.rows⟩ : Frame).rows.filterMap
        (fun s => Row.get s lsoaCol)).Nodup := by
      show ((dedupFirst sel.rows).filterMap (fun s => Row.get s lsoaCol)).Nodup
      rw [hselr]
      exact hu
    have h1 := merge_rows_length_le hu' hm
    obtain ⟨-, -, h1r⟩ := drop_ok hd1
    obtain ⟨-, -, h2r⟩ := drop_ok hd2
    rw [h2r, List.length_map, h1r, List.length_map, setCol_rows, List.length_map]
    exact h1
  · intro sh df out h
    rw [replace_hospital_with_random_number] at h
    by_cases hh : hospitalCol ∈ df.cols
    · rw [if_pos hh] at h
      obtain ⟨-, -, hr⟩ := drop_ok h
      rw [hr, List.length_map, setCol_rows, List.length_map]
    · rw [if_neg hh] at h
      exact absurd h (by simp)
  · intro df out h
    rw [put_time_frame] at h
    by_cases hh : arrivalTimeCol ∈ df.cols
    · rw [if_pos hh] at h
      obtain ⟨d4, hd4, hd5⟩ := except_bind_ok h
      obtain ⟨-, -, h4r⟩ := drop_ok hd4
      obtain ⟨-, -, h5r⟩ := drop_ok hd5
      rw [h5r, List.length_map, h4r, List.length_map, setCol_rows,
        List.length_map, setCol_rows, List.length_map, setCol_rows,
        List.length_map]
    · rw [if_neg hh] at h
      exact absurd h (by simp)
  · intro df out h
    rw [remove_non_male_or_female] at h
    by_cases hh : genderCol ∈ df.cols
    · rw [if_pos hh] at h
      cases h
      exact List.length_filter_le _ _
    · rw [if_neg hh] at h
      exact absurd h (by simp)
  · intro df out h
    rw [add_age_brackets] at h
    by_cases hh : ageCol ∈ df.cols
    · rw [if_pos hh] at h
      obtain ⟨-, -, hr⟩ := drop_ok h
      rw [hr, List.length_map, setCol_rows, List.length_map]
    · rw [if_neg hh] at h
      exact absurd h (by simp)

/-- Witness for the amended C9: each stage instantiated at a concrete
record set against the concrete reference table, whose uniqueness
hypotheses are checked by evaluation. -/
theorem C9_row_count_nonincreasing_witness :
    (⟨([] : List String), [([] : Row)]⟩ : Frame).rows.length =
      (⟨[nhsCol], [[(nhsCol, Value.str "111")]]⟩ : Frame).rows.length ∧
    (⟨[lsoaCol], [[(lsoaCol, Value.str "L4")]]⟩ : Frame).rows.length ≤
      (⟨[postcodeCol], [[(postcodeCol, Value.str "P4")]]⟩ : Frame).rows.length ∧
    (⟨[decileCol], [[(decileCol, Value.int 2)]]⟩ : Frame).rows.length ≤
      (⟨[lsoaCol], [[(lsoaCol, Value.str "L4")]]⟩ : Frame).rows.length ∧
    (⟨[hospitalIdCol], [[(hospitalIdCol, Value.int 1)]]⟩ : Frame).rows.length =
      (⟨[hospitalCol], [[(hospitalCol, Value.str "A")]]⟩ : Frame).rows.length ∧
    (⟨[arrivalDateCol, hourRangeCol],
      [[(arrivalDateCol, Value.str "2019-01-01"),
        (hourRangeCol, Value.str "00-03")]]⟩ : Frame).rows.length =
      frameHour4.rows.length ∧
    (⟨[genderCol], [[(genderCol, Value.str "Male")]]⟩ : Frame).rows.length ≤
      (⟨[genderCol],
        [[(genderCol, Value.str "Male")], [(genderCol, Value.str "Other")]]⟩ :
          Frame).rows.length ∧
    (⟨[ageBracketCol], [[(ageBracketCol, Value.str "0-17")]]⟩ : Frame).rows.length =
      frameAge18.rows.length :=
  ⟨C9_row_count_nonincreasing.1 ⟨[nhsCol], [[(nhsCol, Value.str "111")]]⟩ _ rfl,
   C9_row_count_nonincreasing.2.1 refFrame
     ⟨[postcodeCol], [[(postcodeCol, Value.str "P4")]]⟩ _ (by decide) rfl,
   C9_row_count_nonincreasing.2.2.1 refFrame
     ⟨[lsoaCol], [[(lsoaCol, Value.str "L4")]]⟩ _ (by decide) rfl,
   C9_row_count_nonincreasing.2.2.2.1 [Value.str "A"]
     ⟨[hospitalCol], [[(hospitalCol, Value.str "A")]]⟩ _ rfl,
   C9_row_count_nonincreasing.2.2.2.2.1 frameHour4 _ rfl,
   C9_row_count_nonincreasing.2.2.2.2.2.1
     ⟨[genderCol],
      [[(genderCol, Value.str "Male")], [(genderCol, Value.str "Other")]]⟩ _ rfl,
   C9_row_count_nonincreasing.2.2.2.2.2.2 frameAge18 _ rfl⟩

/-- Selecting the columns `[c, c2]` of a row preserves the lookup of `c2`. -/
theorem get_selectRow_second {c c2 : String} (r : Row) (hne : c ≠ c2) :
    Row.get (selectRow [c, c2] r) c2 = Row.get r c2 := by
  cases h1 : Row.get r c <;> cases h2 : Row.get r c2 <;>
    simp [selectRow, h1, h2, Row.get, hne]

/-- C6: every row surviving the deprivation-decile stage carries an integer
decile in `{1, …, 10}`; the decile is obtained by cutting a deprivation
value of the reference population against the 10-quantile boundaries
computed once over the entire reference column (lowest boundary inclusive);
and the stage is row-order invariant: permuting the working set's rows
permutes the output rows and changes no row's decile. -/
theorem C6_decile_range_and_order_invariance (ref df out : Frame)
    (hnum : ∀ s ∈ ref.rows, ∃ q : ℚ, Row.get s imdCol = some (.rat q))
    (hdf : ∀ r ∈ df.rows, Row.get r imdCol = none)
    (h : convert_lsoa_to_imd_decile ref df = .ok out) :
    (∀ r ∈ out.rows, ∃ d : ℤ, Row.get r decileCol = some (.int d) ∧
      1 ≤ d ∧ d ≤ 10 ∧
      ∃ q ∈ colRats ref imdCol, ∃ i : ℕ,
        cutIdx (quantileBins (colRats ref imdCol)) q = some i ∧ d = i + 1) ∧
    (∀ df2 : Frame, df2.cols = df.cols → df2.rows.Perm df.rows →
      ∃ out2, convert_lsoa_to_imd_decile ref df2 = .ok out2 ∧
        out2.cols = out.cols ∧ out2.rows.Perm out.rows) := by
  obtain ⟨sel, hsel, merged, hm, d1, hd1, hd2⟩ := convert_lsoa_inv h
  obtain ⟨hselc, hselr, hrefmem⟩ := select_ok hsel
  obtain ⟨hmk1, -, -, -⟩ := merge_ok hm
  have h1 : lsoaCol ∈ ref.cols := hrefmem _ (by decide)
  have h2 : imdCol ∈ ref.cols := hrefmem _ (by decide)
  have hshape := convert_lsoa_ok ref df hmk1 h1 h2
  have hout := Except.ok.inj (h.symm.trans hshape)
  constructor
  · intro r hr
    rw [hout] at hr
    obtain ⟨r1, hr1, rfl⟩ := List.mem_map.1 hr
    obtain ⟨r2, hr2, rfl⟩ := List.mem_map.1 hr1
    obtain ⟨m, hmm, rfl⟩ := List.mem_map.1 hr2
    obtain ⟨a, ha, hma⟩ := List.mem_flatMap.1 hmm
    cases hga : Row.get a lsoaCol with
    | none =>
      simp only [mergeRow, hga] at hma
      exact absurd hma (by simp)
    | some v =>
      simp only [mergeRow, hga] at hma
      obtain ⟨s, hsf, rfl⟩ := List.mem_map.1 hma
      rw [List.mem_filter] at hsf
      obtain ⟨hsd, -⟩ := hsf
      have hs' : s ∈ ref.rows.map (selectRow [lsoaCol, imdCol]) :=
        (mem_dedupFirst _ _).1 hsd
      obtain ⟨r0, hr0, rfl⟩ := List.mem_map.1 hs'
      obtain ⟨q, hq⟩ := hnum r0 hr0
      have hgm : Row.get (a ++ Row.del (selectRow [lsoaCol, imdCol] r0) lsoaCol)
          imdCol = some (.rat q) := by
        rw [Row.get_append_right _ _ _ (hdf a ha),
          Row.get_del_ne _ _ _ (by decide), get_selectRow_second r0 (by decide)]
        exact hq
      have hqmem : q ∈ colRats ref imdCol :=
        List.mem_filterMap.2 ⟨r0, hr0, by rw [hq]; rfl⟩
      obtain ⟨i, hi9, hcut⟩ := quantileBins_cut hqmem
      refine ⟨(i : ℤ) + 1, ?_, by omega, by omega, q, hqmem, i, hcut, rfl⟩
      rw [Row.get_del_ne _ _ _ (by decide), Row.get_del_ne _ _ _ (by decide),
        Row.get_set_self]
      simp only [decileCell, hgm, Option.some_bind, toRatVal, decileValue, hcut]
  · intro df2 hcols hrows
    refine ⟨_, convert_lsoa_ok ref df2 (by rw [hcols]; exact hmk1) h1 h2, ?_, ?_⟩
    · rw [hout]
      simp only [hcols]
    · rw [hout]
      exact (((hrows.flatMap_right _).map _).map _).map _

/-- Witness for C6 at a concrete reference table and one-row working set:
the two surviving rows carry deciles 1 and 10. -/
theorem C6_decile_range_and_order_invariance_witness :
    (∀ r ∈ (⟨[decileCol],
        [[(decileCol, Value.int 1)], [(decileCol, Value.int 10)]]⟩ :
          Frame).rows,
      ∃ d : ℤ, Row.get r decileCol = some (.int d) ∧ 1 ≤ d ∧ d ≤ 10 ∧
      ∃ q ∈ colRats refDup imdCol, ∃ i : ℕ,
        cutIdx (quantileBins (colRats refDup imdCol)) q = some i ∧ d = i + 1) ∧
    (∀ df2 : Frame, df2.cols = frameOneL1.cols →
      df2.rows.Perm frameOneL1.rows →
      ∃ out2, convert_lsoa_to_imd_decile refDup df2 = .ok out2 ∧
        out2.cols = (⟨[decileCol],
          [[(decileCol, Value.int 1)], [(decileCol, Value.int 10)]]⟩ :
            Frame).cols ∧
        out2.rows.Perm (⟨[decileCol],
          [[(decileCol, Value.int 1)], [(decileCol, Value.int 10)]]⟩ :
            Frame).rows) :=
  C6_decile_range_and_order_invariance refDup frameOneL1
    ⟨[decileCol], [[(decileCol, Value.int 1)], [(decileCol, Value.int 10)]]⟩
    (by
      intro s hs
      rcases List.mem_cons.1 hs with rfl | hs
      · exact ⟨5, rfl⟩
      · rcases List.mem_cons.1 hs with rfl | hs
        · exact ⟨7, rfl⟩
        · exact absurd hs (by simp))
    (by decide) rfl

end Deidentify
